import Mathlib

/-!
# Simon Says Sit: a shallow embedding of `game.cpp`

The sketch runs on a TI LaunchPad MSP430: `int` is 16 bits wide, `long` 32 bits.
Every function of `game.cpp` but `setup` (pin modes and motor speed, which the
game never reads back) becomes a Lean function of the same name.

* What the sketch reads from the outside (switch levels, the millisecond clock,
  the random generator, the stale bytes of a fresh stack frame) is a `World`:
  streams of the readings still to come.  Reading consumes the head of a stream.
* What the sketch commands (pin writes, tones, delays, motor steps) is returned
  as a list of `Event`s, in program order.  The list also records each entry into
  (and each `int` returned from) a function of the sketch, so that statements
  such as "called exactly once" can be made about a run.
* A `while` loop that may spin forever takes a fuel argument (a bound on the
  number of poll passes); an array access outside the array is a fault.
-/

namespace SimonSaysSit

/-! ## Machine integers -/

/-- Wrap an integer to the 16-bit two's complement `int` of the MSP430. -/
def toInt16 (x : Int) : Int := (x + 32768) % 65536 - 32768

/-- Wrap an integer to the 32-bit two's complement `long` of the MSP430. -/
def toLong (x : Int) : Int := (x + 2147483648) % 4294967296 - 2147483648

/-- The range of `unsigned long`, the return type of `millis()`. -/
def toULong (x : Int) : Int := x % 4294967296

/-! ## Constants of the sketch -/

/-- Source: `#define PINS 3` -/
abbrev PINS : Nat := 3

/-- Source: `#define ROUNDS 3` -/
abbrev ROUNDS : Nat := 3

/-- Logic level `LOW`. -/
abbrev LOW : Int := 0

/-- Logic level `HIGH`. -/
abbrev HIGH : Int := 1

/-! ## Events and faults -/

/-- The functions defined in `game.cpp`. -/
inductive Fn
  | PlaySimon | NewPick | DisplayAllPicks | DisplayPick | PlayerInput | WrongPick
  | DispenseReward | BlinkPin | ToneOut | ButtonListener | SyncIO | MotorControl
  deriving DecidableEq, Repr

/-- One entry of the run log.  The first six constructors are the commands sent
to the hardware libraries, with the arguments the sketch passes.  `enter f args`
marks an entry into `f`: `args` are its scalar arguments in order, and for a
function that takes `RoundPick` the contents of that array; the pin and tone
tables are not recorded.  `ret f v` marks `f` returning the `int` `v`. -/
inductive Event
  | digitalWrite (pin level : Int)
  | delay (ms : Int)
  | noTone (pin : Int)
  | tone (pin note duration : Int)
  | randomSeed (seed : Int)
  | motorStep (steps : Int)
  | enter (f : Fn) (args : List Int)
  | ret (f : Fn) (v : Int)
  deriving DecidableEq, Repr

/-- Why a run of the model stops without a result. -/
inductive Fault
  | outOfFuel
  | outOfBounds
  deriving DecidableEq, Repr

/-! ## Global variables and the outside world -/

/-- The global variables of the sketch that the game reads (all are plain,
non-`const` `int`s in the source). -/
structure Globals where
  pickTimeout : Int
  aLEDs : List Int
  aSwitches : List Int
  aTones : List Int
  soundDuration : Int
  speakerPin : Int
  deriving DecidableEq, Repr

/-- The globals as initialised in `game.cpp`.  The three note constants come from
`pitches.h`, which is not part of the sources at hand, so they are parameters. -/
def sketchGlobals (NOTE_CS4 NOTE_F4 NOTE_GS4 : Int) : Globals :=
  { pickTimeout := 6000
    aLEDs := [2, 3, 4]
    aSwitches := [6, 7, 8]
    aTones := [NOTE_CS4, NOTE_F4, NOTE_GS4]
    soundDuration := 1500
    speakerPin := 10 }

/-- The state the sketch runs against.  `mem` holds the global variables.
`switches k pin` is the level the `k`-th `digitalRead` from now returns when it
reads `pin`; `clock k` is what the `k`-th `millis()` from now returns; `dice k lo
hi` is what the `k`-th `random(lo, hi)` from now returns; `stack k` is the stale
content of the `k`-th `int` of the next stack frame. -/
structure World where
  mem : Globals
  switches : Nat → Int → Int
  clock : Nat → Int
  dice : Nat → Int → Int → Int
  stack : Nat → Int

/-- The world after `a` further `digitalRead`s, `b` further `millis()` calls and
`c` further `random` calls. -/
def World.skip (w : World) (a b c : Nat) : World :=
  { w with
    switches := fun k => w.switches (k + a)
    clock := fun k => w.clock (k + b)
    dice := fun k => w.dice (k + c) }

/-- The library call `digitalRead(pin)`: one sample of a pin. -/
def digitalRead (pin : Int) (w : World) : Int × World :=
  (w.switches 0 pin, w.skip 1 0 0)

/-- The library call `millis()`: an `unsigned long` count of milliseconds. -/
def millis (w : World) : Int × World :=
  (toULong (w.clock 0), w.skip 0 1 0)

/-- The library call `random(lo, hi)`, which returns a `long`. -/
def random (lo hi : Int) (w : World) : Int × World :=
  (toLong (w.dice 0 lo hi), w.skip 0 0 1)

/-- Reading `arr[i]`; an index outside the array is a fault. -/
def index (arr : List Int) (i : Int) : Except Fault Int :=
  if 0 ≤ i then
    match arr.get? i.toNat with
    | some v => .ok v
    | none => .error .outOfBounds
  else .error .outOfBounds

/-- Writing `arr[i] = v`; an index outside the array is a fault. -/
def store (arr : List Int) (i : Int) (v : Int) : Except Fault (List Int) :=
  if 0 ≤ i ∧ i.toNat < arr.length then .ok (arr.set i.toNat v) else .error .outOfBounds

/-! ## Utility functions -/

/-- Source: `void ToneOut(int pin, int note, int duration)` -/
def ToneOut (pin note duration : Int) : List Event :=
  [.enter .ToneOut [pin, note, duration], .noTone pin, .tone pin note duration]

/-- Source: `void BlinkPin(int ledPin, int onTime, int offTime)` -/
def BlinkPin (ledPin onTime offTime : Int) : List Event :=
  [.enter .BlinkPin [ledPin, onTime, offTime],
   .digitalWrite ledPin HIGH, .delay onTime, .digitalWrite ledPin LOW, .delay offTime]

/-- Source: `void MotorControl(int bins)`: `ratio = 2.0` is stored in an `int`, and
`rotate = bins * (2048/6) * ratio` is evaluated left to right in 16-bit `int`
arithmetic with a truncating division of the two literals. -/
def MotorControl (bins : Int) : List Event :=
  let ratio : Int := 2
  let rotate : Int := toInt16 (toInt16 (bins * (2048 / 6)) * ratio)
  [.enter .MotorControl [bins], .motorStep rotate]

/-- Source: `void DispenseReward()` -/
def DispenseReward : List Event :=
  .enter .DispenseReward [] :: MotorControl 1

/-- The body of the `for` loop of `WrongPick`, run `n` times. -/
def WrongPick.forLoop (speakerPin : Int) : Nat → List Event
  | 0 => []
  | n + 1 => ToneOut speakerPin 200 50 ++ ToneOut speakerPin 203 50 ++ WrongPick.forLoop speakerPin n

/-- Source: `void WrongPick()`: it takes no argument and uses the global `speakerPin`. -/
def WrongPick (mem : Globals) : List Event :=
  .enter .WrongPick [] :: WrongPick.forLoop mem.speakerPin 200

/-- Source: `void DisplayPick(int pin, int itone, int speakerPin, int duration)` -/
def DisplayPick (pin itone speakerPin duration : Int) : List Event :=
  .enter .DisplayPick [pin, itone, speakerPin, duration]
    :: (ToneOut speakerPin itone duration ++ BlinkPin pin duration 100)

/-- The `for` loop of `DisplayAllPicks`: `n` iterations remain, the next index is `i`. -/
def DisplayAllPicks.forLoop (aLEDs aTones RoundPick : List Int) (speakerPin duration : Int) :
    Nat → Nat → Except Fault (List Event)
  | 0, _ => .ok []
  | n + 1, i => do
    let thisRound ← index RoundPick i
    if thisRound > -1 then
      let pin ← index aLEDs thisRound
      let itone ← index aTones thisRound
      let rest ← DisplayAllPicks.forLoop aLEDs aTones RoundPick speakerPin duration n (i + 1)
      .ok (DisplayPick pin itone speakerPin duration ++ rest)
    else
      DisplayAllPicks.forLoop aLEDs aTones RoundPick speakerPin duration n (i + 1)

/-- Source: `void DisplayAllPicks(int aLEDs[], int aTones[], int RoundPick[], int speakerPin, int duration)` -/
def DisplayAllPicks (aLEDs aTones RoundPick : List Int) (speakerPin duration : Int) :
    Except Fault (List Event) := do
  let out ← DisplayAllPicks.forLoop aLEDs aTones RoundPick speakerPin duration ROUNDS 0
  .ok (.enter .DisplayAllPicks (speakerPin :: duration :: RoundPick) :: out)

/-- Source: `int NewPick(int start, int end)`: the `long` from `random` is stored in the
`int` `pick`. -/
def NewPick (start stop : Int) (w : World) : Int × World × List Event :=
  let (seed, w1) := random 1 2048 w
  let (r, w2) := random start stop w1
  let pick := toInt16 r
  (pick, w2, [.enter .NewPick [start, stop], .randomSeed seed, .ret .NewPick pick])

/-! ## Input capture -/

/-- Source: `int SyncIO(int btnPin, int ledPin, int speakerPin, int itone)`, with the
parameters in the order of the definition in the source. -/
def SyncIO (btnPin ledPin speakerPin itone : Int) (w : World) : Int × World × List Event :=
  let (btn, w1) := digitalRead btnPin w
  if btn = LOW then
    (1, w1, [.enter Fn.SyncIO [btnPin, ledPin, speakerPin, itone], .digitalWrite ledPin HIGH]
              ++ ToneOut speakerPin itone 200 ++ [.ret Fn.SyncIO 1])
  else
    (0, w1, [.enter Fn.SyncIO [btnPin, ledPin, speakerPin, itone], .digitalWrite ledPin LOW,
             .ret Fn.SyncIO 0])

/-- The `for` loop of `ButtonListener` (one poll pass): `n` iterations remain, the
next channel is `i`, `state` is the pick detected so far.  The call passes
`itone` third and `speakerPin` fourth, as the source does. -/
def ButtonListener.forLoop (aSwitches aLEDs aTones : List Int) (speakerPin : Int) :
    Nat → Nat → Int → World → Except Fault (Int × World × List Event)
  | 0, _, state, w => .ok (state, w, [])
  | n + 1, i, state, w => do
    let btnPin ← index aSwitches i
    let ledPin ← index aLEDs i
    let itone ← index aTones i
    let (recVal, w1, out1) := SyncIO btnPin ledPin itone speakerPin w
    let state1 : Int := if recVal = 1 then (i : Int) else state
    let (state2, w2, out2) ← ButtonListener.forLoop aSwitches aLEDs aTones speakerPin n (i + 1) state1 w1
    .ok (state2, w2, out1 ++ out2)

/-- The `while(state == -1)` loop of `ButtonListener`, with at most `fuel` poll
passes.  `lngStartTime` and `lngEndTime` are `long`s; their difference is
compared with the `int` `pickTimeout`. -/
def ButtonListener.whileLoop (pickTimeout : Int) (aSwitches aLEDs aTones : List Int)
    (speakerPin : Int) (lngStartTime : Int) :
    Nat → Int → World → Except Fault (Int × World × List Event)
  | fuel, state, w =>
    if state = -1 then
      match fuel with
      | 0 => .error .outOfFuel
      | fuel + 1 => do
        let (state1, w1, out1) ← ButtonListener.forLoop aSwitches aLEDs aTones speakerPin PINS 0 state w
        let (t, w2) := millis w1
        let lngEndTime := toLong t
        if toLong (lngEndTime - lngStartTime) > pickTimeout then
          .ok (state1, w2, out1)
        else do
          let (state3, w3, out3) ←
            ButtonListener.whileLoop pickTimeout aSwitches aLEDs aTones speakerPin lngStartTime fuel state1 w2
          .ok (state3, w3, out1 ++ out3)
    else .ok (state, w, [])

/-- Source: `int ButtonListener(int pickTimeout, int aSwitches[], int aLEDs[], int aTones[], int speakerPin)` -/
def ButtonListener (fuel : Nat) (pickTimeout : Int) (aSwitches aLEDs aTones : List Int)
    (speakerPin : Int) (w : World) : Except Fault (Int × World × List Event) := do
  let state : Int := -1
  let (t, w1) := millis w
  let lngStartTime := toLong t
  let (state1, w2, out) ←
    ButtonListener.whileLoop pickTimeout aSwitches aLEDs aTones speakerPin lngStartTime fuel state w1
  .ok (state1, w2, .enter .ButtonListener [pickTimeout, speakerPin] :: (out ++ [.ret .ButtonListener state1]))

/-! ## The verifier and the orchestrator -/

/-- The `for` loop of `PlayerInput`: `n` iterations remain, the next index is `j`.
The value is `retVal` when the loop is left (by running out or by `break`). -/
def PlayerInput.forLoop (fuel : Nat) (RoundPick : List Int) (pickTimeout : Int)
    (aLEDs aSwitches aTones : List Int) (speakerPin duration : Int) :
    Nat → Nat → World → Except Fault (Int × World × List Event)
  | 0, _, w => .ok (0, w, [])
  | n + 1, j, w => do
    let thisRound ← index RoundPick j
    if thisRound > -1 then
      let (actualButton, w1, out1) ← ButtonListener fuel pickTimeout aSwitches aLEDs aTones speakerPin w
      if actualButton = thisRound then
        let pin ← index aLEDs actualButton
        let itone ← index aTones actualButton
        let out2 := DisplayPick pin itone speakerPin duration
        let (retVal, w3, out3) ←
          PlayerInput.forLoop fuel RoundPick pickTimeout aLEDs aSwitches aTones speakerPin duration n (j + 1) w1
        .ok (retVal, w3, out1 ++ out2 ++ out3)
      else
        .ok (-1, w1, out1)
    else
      PlayerInput.forLoop fuel RoundPick pickTimeout aLEDs aSwitches aTones speakerPin duration n (j + 1) w

/-- Source: `int PlayerInput(int RoundPick[], int pickTimeout, int aLEDs[], int aSwitches[], int aTones[],
int speakerPin, int duration)` -/
def PlayerInput (fuel : Nat) (RoundPick : List Int) (pickTimeout : Int)
    (aLEDs aSwitches aTones : List Int) (speakerPin duration : Int) (w : World) :
    Except Fault (Int × World × List Event) := do
  let (retVal, w1, out1) ←
    PlayerInput.forLoop fuel RoundPick pickTimeout aLEDs aSwitches aTones speakerPin duration ROUNDS 0 w
  let out2 := if retVal = -1 then WrongPick w1.mem else []
  .ok (retVal, w1,
    .enter .PlayerInput (pickTimeout :: speakerPin :: duration :: RoundPick)
      :: (out1 ++ out2 ++ [.ret .PlayerInput retVal]))

/-- The loop of `PlaySimon` that fills the game array with `-1`. -/
def PlaySimon.initLoop : Nat → Nat → List Int → Except Fault (List Int)
  | 0, _, RoundPick => .ok RoundPick
  | n + 1, i, RoundPick => do
    let RoundPick1 ← store RoundPick i (-1)
    PlaySimon.initLoop n (i + 1) RoundPick1

/-- The round loop of `PlaySimon`: `n` rounds remain, the next round is `i`.  The
value is `recVal` when the loop is left, with the final game array. -/
def PlaySimon.forLoop (fuel : Nat) (aLEDs aSwitches aTones : List Int)
    (duration speakerPin pickTimeout : Int) :
    Nat → Nat → List Int → Int → World → Except Fault ((Int × List Int) × World × List Event)
  | 0, _, RoundPick, recVal, w => .ok ((recVal, RoundPick), w, [])
  | n + 1, i, RoundPick, _, w => do
    let (pick, w1, out1) := NewPick 0 PINS w
    let RoundPick1 ← store RoundPick i pick
    let out2 ← DisplayAllPicks aLEDs aTones RoundPick1 speakerPin duration
    let (recVal1, w3, out3) ←
      PlayerInput fuel RoundPick1 pickTimeout aLEDs aSwitches aTones speakerPin duration w1
    if recVal1 = -1 then
      .ok ((recVal1, RoundPick1), w3, out1 ++ out2 ++ out3)
    else do
      let (res, w4, out4) ←
        PlaySimon.forLoop fuel aLEDs aSwitches aTones duration speakerPin pickTimeout n (i + 1) RoundPick1 recVal1 w3
      .ok (res, w4, out1 ++ out2 ++ out3 ++ .delay 3000 :: out4)

/-- Source: `void PlaySimon(int aLEDs[], int aSwitches[], int aTones[], int duration, int speakerPin,
int pickTimeout)`.  The array `RoundPick` is a local without initialiser: it starts
with whatever the stack holds, and the frame is left behind on return. -/
def PlaySimon (fuel : Nat) (aLEDs aSwitches aTones : List Int)
    (duration speakerPin pickTimeout : Int) (w : World) :
    Except Fault (Unit × World × List Event) := do
  let RoundPick : List Int := (List.range ROUNDS).map w.stack
  let recVal : Int := 0
  let RoundPick ← PlaySimon.initLoop ROUNDS 0 RoundPick
  let ((recVal, RoundPick), w1, out1) ←
    PlaySimon.forLoop fuel aLEDs aSwitches aTones duration speakerPin pickTimeout ROUNDS 0 RoundPick recVal w
  let out2 := if recVal = 0 then DispenseReward else []
  .ok ((), { w1 with stack := fun k => RoundPick.getD k (w1.stack k) },
    .enter .PlaySimon [duration, speakerPin, pickTimeout] :: (out1 ++ out2))

/-- The argument lists of the entries into `f`, in order. -/
def calls (f : Fn) : List Event → List (List Int)
  | [] => []
  | .enter g args :: rest => if g = f then args :: calls f rest else calls f rest
  | _ :: rest => calls f rest

/-- The values returned by `f`, in order. -/
def rets (f : Fn) : List Event → List Int
  | [] => []
  | .ret g v :: rest => if g = f then v :: rets f rest else rets f rest
  | _ :: rest => rets f rest

/-- The commands sent to the hardware, without the entry and return marks. -/
def commands : List Event → List Event
  | [] => []
  | .enter _ _ :: rest => commands rest
  | .ret _ _ :: rest => commands rest
  | e :: rest => e :: commands rest

/-! ## Vocabulary for the statements -/

/-- Channel `c` reads pressed in poll pass `p` of a capture that starts at `w`:
pass `p` samples channel `c` with the `(PINS * p + c)`-th `digitalRead` from `w`,
on the pin `aSwitches[c]`. -/
def pressedIn (aSwitches : List Int) (w : World) (p c : Nat) : Prop :=
  w.switches (PINS * p + c) (aSwitches.getD c 0) = LOW

instance (aSwitches : List Int) (w : World) (p c : Nat) : Decidable (pressedIn aSwitches w p c) := by
  unfold pressedIn; infer_instance

/-- The elapsed time as `ButtonListener` computes it from two `millis()` readings:
each is stored in a `long`, and the difference is a `long`. -/
def elapsed (start stop : Int) : Int :=
  toLong (toLong (toULong stop) - toLong (toULong start))

/-- The value a poll pass leaves in `state`: `n` channels are sampled from channel
`i` on, the `k`-th of them with the reading `sw k`. -/
def detect (aSwitches : List Int) (sw : Nat → Int → Int) : Nat → Nat → Int → Int
  | 0, _, state => state
  | n + 1, i, state =>
    detect aSwitches (fun k => sw (k + 1)) n (i + 1)
      (if sw 0 (aSwitches.getD i 0) = LOW then (i : Int) else state)

/-- The hardware commands of one playback pulse on LED pin `pin` with note `itone`. -/
def pulse (pin itone speakerPin duration : Int) : List Event :=
  [.noTone speakerPin, .tone speakerPin itone duration,
   .digitalWrite pin HIGH, .delay duration, .digitalWrite pin LOW, .delay 100]

/-- What is known of the log of a stretch of polling: the `SyncIO` calls made, and
that no other function of the sketch but `ToneOut` is entered. -/
structure PollLog (out : List Event) (syncCalls : List (List Int)) : Prop where
  sync : calls Fn.SyncIO out = syncCalls
  others : ∀ f, f ≠ Fn.SyncIO → f ≠ .ToneOut → calls f out = []
  noRet : ∀ f, f ≠ Fn.SyncIO → rets f out = []

/-- What is known of the log of one `ButtonListener` call that returned `r`: it is
entered once, returns once, and enters no other function of the sketch but
`SyncIO` and `ToneOut`. -/
structure ListenLog (out : List Event) (args : List Int) (r : Int) : Prop where
  entered : calls .ButtonListener out = [args]
  returned : rets .ButtonListener out = [r]
  others : ∀ f, f ≠ .ButtonListener → f ≠ Fn.SyncIO → f ≠ .ToneOut → calls f out = []
  noRet : ∀ f, f ≠ .ButtonListener → f ≠ Fn.SyncIO → rets f out = []

/-- The `SyncIO` argument lists of one poll pass, as `ButtonListener` passes them:
switch pin, LED pin, the channel's note, the speaker pin. -/
def passCalls (aSwitches aLEDs aTones : List Int) (speakerPin : Int) : List (List Int) :=
  (List.range' 0 PINS).map
    (fun c => [aSwitches.getD c 0, aLEDs.getD c 0, aTones.getD c 0, speakerPin])

/-- Every capture started at a later point of the run returns within `fuel` poll
passes (because a switch is pressed or because the clock runs past the timeout). -/
def Responsive (fuel : Nat) (pickTimeout : Int) (aSwitches aLEDs aTones : List Int)
    (speakerPin : Int) (w : World) : Prop :=
  ∀ a b c, ∃ res,
    ButtonListener fuel pickTimeout aSwitches aLEDs aTones speakerPin (w.skip a b c) = .ok res

/-- The log has no entry into `f` and no return from it. -/
def Silent (f : Fn) (out : List Event) : Prop :=
  calls f out = [] ∧ rets f out = []

/-- The arguments of the confirmation `DisplayPick` for the pick `e`. -/
def confirmArgs (aLEDs aTones : List Int) (speakerPin duration : Int) (e : Int) : List Int :=
  [aLEDs.getD e.toNat 0, aTones.getD e.toNat 0, speakerPin, duration]

/-- What the log `out` of the comparison loop of `PlayerInput` shows when the loop is
left with `retVal = r`, for the expected picks `es`: either all picks were matched,
or the first `m` were and the capture for pick `m` returned some other `b`. -/
def Verdict (aLEDs aTones : List Int) (speakerPin duration : Int) (es : List Int) (r : Int)
    (out : List Event) : Prop :=
  (r = 0 ∧ rets .ButtonListener out = es ∧ (calls .ButtonListener out).length = es.length ∧
    calls .DisplayPick out = es.map (confirmArgs aLEDs aTones speakerPin duration)) ∨
  (r = -1 ∧ ∃ m b, m < es.length ∧ b ≠ es.getD m 0 ∧
    rets .ButtonListener out = es.take m ++ [b] ∧ (calls .ButtonListener out).length = m + 1 ∧
    calls .DisplayPick out = (es.take m).map (confirmArgs aLEDs aTones speakerPin duration))

/-- The assumption on the library generator: every `random(0, PINS)` still to come
returns a value in `[0, PINS)`. -/
def FairDice (w : World) : Prop :=
  ∀ k, 0 ≤ w.dice k 0 PINS ∧ w.dice k 0 PINS < PINS

/-- The game array after `q` more rounds, starting at round `i` with the array
`RoundPick`: round `i + t` stores the result of the second `random` call of its
`NewPick`, which is the `(2 * t + 1)`-th call from now. -/
def fill (dice : Nat → Int → Int → Int) (RoundPick : List Int) (i : Nat) : Nat → List Int
  | 0 => RoundPick
  | q + 1 => fill (fun k => dice (k + 2)) (RoundPick.set i (dice 1 0 PINS)) (i + 1) q

/-- The game array as round `t` (0-based) of a game that starts at `w` sees it: the
picks of rounds `0..t` in slots `0..t`, the sentinel `-1` in the other slots. -/
def snapshot (w : World) (t : Nat) : List Int :=
  (List.range (t + 1)).map (fun s => w.dice (2 * s + 1) 0 PINS) ++
    List.replicate (ROUNDS - (t + 1)) (-1)

/-- The same world with other stale stack content. -/
def World.withStack (w : World) (s : Nat → Int) : World :=
  { w with stack := s }

/-- What the log `out` of the round loop of `PlaySimon` shows: one `NewPick`, one
`DisplayAllPicks` and one `PlayerInput` per round run, the latter two on the game
array of that round (`arrays` lists these arrays); the outcomes of the rounds; and
no `DispenseReward` inside the loop. -/
structure RoundsLog (pickTimeout speakerPin duration : Int) (arrays : List (List Int))
    (outcomes : List Int) (out : List Event) : Prop where
  newPick : calls .NewPick out = arrays.map (fun _ => [0, (PINS : Int)])
  display : calls .DisplayAllPicks out = arrays.map (fun rp => speakerPin :: duration :: rp)
  verify : calls .PlayerInput out = arrays.map (fun rp => pickTimeout :: speakerPin :: duration :: rp)
  outcomes : rets .PlayerInput out = outcomes
  noReward : calls .DispenseReward out = []

/-- A world whose switches all read the same level on every pin but `pin`, which
reads the opposite level; the clock stands at `t`. -/
def steadyWorld (mem : Globals) (level : Int) (pin : Int) (t : Int) : World :=
  { mem := mem
    switches := fun _ p => if p = pin then 1 - level else level
    clock := fun _ => t
    dice := fun _ _ _ => 0
    stack := fun _ => 0 }

/-- A world in which no switch is ever pressed, with the given clock. -/
def quietWorld (mem : Globals) (clock : Nat → Int) : World :=
  { mem := mem
    switches := fun _ _ => HIGH
    clock := clock
    dice := fun _ _ _ => 0
    stack := fun _ => 0 }

/-- No switch is ever pressed, and the clock reads `0` at the start of the capture
and `2147483653` (which is `2^31 + 5`) ever after. -/
def stalledWorld (mem : Globals) : World :=
  quietWorld mem (fun k => if k = 0 then 0 else 2147483653)

/-- No switch is ever pressed, and the clock advances by one second per reading. -/
def tickingWorld (mem : Globals) : World :=
  quietWorld mem (fun k => 1000 * (k : Int))

/-- A scripted player at the sketch's switch pins 6, 7, 8.  Every capture lasts one
poll pass, because the clock advances 7 seconds per reading; during the `p`-th
pass of the run the player holds down the switch of channel `script[p]` (none when
the script has run out).  The `k`-th call of `random` returns `rolls[k]`. -/
def scriptedWorld (mem : Globals) (script : List Int) (rolls : List Int) : World :=
  { mem := mem
    switches := fun k pin => if pin = 6 + script.getD (k / 3) (-1) then LOW else HIGH
    clock := fun k => 7000 * (k : Int)
    dice := fun k _ _ => rolls.getD k 0
    stack := fun _ => 0 }

theorem toInt16_of_range (x : Int) (h0 : -32768 ≤ x) (h1 : x < 32768) : toInt16 x = x := by
  unfold toInt16; omega

theorem toInt16_mul_two (x : Int) : toInt16 (toInt16 (x * 341) * 2) = toInt16 (682 * x) := by
  unfold toInt16; omega

@[simp] theorem ok_bind {α β : Type} (a : α) (f : α → Except Fault β) :
    (Except.ok a >>= f) = f a := rfl

@[simp] theorem error_bind {α β : Type} (e : Fault) (f : α → Except Fault β) :
    ((Except.error e : Except Fault α) >>= f) = .error e := rfl

theorem index_nat (arr : List Int) (i : Nat) (h : i < arr.length) :
    index arr (i : Int) = .ok (arr.getD i 0) := by
  simp [index, List.getD, List.get?_eq_getElem?, List.getElem?_eq_getElem h]

theorem index_int (arr : List Int) (e : Int) (h0 : 0 ≤ e) (h1 : e < arr.length) :
    index arr e = .ok (arr.getD e.toNat 0) := by
  obtain ⟨n, rfl⟩ := Int.eq_ofNat_of_zero_le h0
  simpa using index_nat arr n (by exact_mod_cast h1)

/-- C6: `MotorControl(bins)` commands the motor once, with `bins * (2048/6) * 2` steps
where `2048/6` truncates to 341, that is `682 * bins` wrapped to the 16-bit `int`;
when `682 * bins` fits an `int` the command is exactly `682 * bins` steps.
`DispenseReward` calls `MotorControl(1)` once and so commands exactly 682 steps. -/
theorem MotorControl_steps (bins : Int) :
    MotorControl bins = [.enter .MotorControl [bins], .motorStep (toInt16 (682 * bins))] ∧
    (-32768 ≤ 682 * bins ∧ 682 * bins < 32768 → commands (MotorControl bins) = [.motorStep (682 * bins)]) ∧
    (2048 / 6 : Int) = 341 ∧
    commands DispenseReward = [.motorStep 682] ∧ calls .MotorControl DispenseReward = [[1]] := by
  have h : MotorControl bins = [.enter .MotorControl [bins], .motorStep (toInt16 (682 * bins))] := by
    simp only [MotorControl]
    have : (2048 / 6 : Int) = 341 := by decide
    rw [this, toInt16_mul_two]
  refine ⟨h, ?_, by decide, by decide, by decide⟩
  intro hr
  rw [h, toInt16_of_range _ hr.1 hr.2]
  simp [commands]


theorem commands_append (a b : List Event) : commands (a ++ b) = commands a ++ commands b := by
  induction a with
  | nil => rfl
  | cons e a ih => cases e <;> simp [commands, ih]

theorem calls_append (f : Fn) (a b : List Event) : calls f (a ++ b) = calls f a ++ calls f b := by
  induction a with
  | nil => rfl
  | cons e a ih =>
    cases e <;> simp [calls, ih]
    split <;> simp

theorem rets_append (f : Fn) (a b : List Event) : rets f (a ++ b) = rets f a ++ rets f b := by
  induction a with
  | nil => rfl
  | cons e a ih =>
    cases e <;> simp [rets, ih]
    split <;> simp

theorem commands_DisplayPick (pin itone speakerPin duration : Int) :
    commands (DisplayPick pin itone speakerPin duration) = pulse pin itone speakerPin duration := by
  simp [DisplayPick, ToneOut, BlinkPin, commands, pulse]

theorem DisplayAllPicks_forLoop_ok (aLEDs aTones RoundPick : List Int) (speakerPin duration : Int)
    (hL : aLEDs.length = PINS) (hT : aTones.length = PINS)
    (hE : ∀ e ∈ RoundPick, e = -1 ∨ (0 ≤ e ∧ e < PINS)) :
    ∀ n i, i + n = RoundPick.length →
      DisplayAllPicks.forLoop aLEDs aTones RoundPick speakerPin duration n i =
        .ok (((RoundPick.drop i).filter (fun e => decide (e ≠ -1))).flatMap
          (fun e => DisplayPick (aLEDs.getD e.toNat 0) (aTones.getD e.toNat 0) speakerPin duration)) := by
  intro n
  induction n with
  | zero =>
    intro i hi
    simp [DisplayAllPicks.forLoop, List.drop_of_length_le (show RoundPick.length ≤ i by omega)]
  | succ n ih =>
    intro i hi
    have hlt : i < RoundPick.length := by omega
    have hd : RoundPick.drop i = RoundPick.getD i 0 :: RoundPick.drop (i + 1) := by
      rw [List.getD_eq_getElem _ _ hlt]; exact List.drop_eq_getElem_cons hlt
    have hmem : RoundPick.getD i 0 ∈ RoundPick := by
      rw [List.getD_eq_getElem _ _ hlt]; exact List.getElem_mem _
    rw [DisplayAllPicks.forLoop, index_nat _ _ hlt, hd, ih (i + 1) (by omega)]
    generalize RoundPick.getD i 0 = x at hmem
    rcases hE _ hmem with h | ⟨h0, h1⟩
    · subst h
      simp
    · have hne : x ≠ -1 := by omega
      have hgt : x > -1 := by omega
      rw [ok_bind, if_pos hgt, index_int _ _ h0 (by rw [hL]; exact_mod_cast h1),
        index_int _ _ h0 (by rw [hT]; exact_mod_cast h1)]
      simp [hne]


theorem commands_flatMap {α : Type} (l : List α) (f : α → List Event) :
    commands (l.flatMap f) = l.flatMap (fun e => commands (f e)) := by
  induction l with
  | nil => rfl
  | cons e l ih => simp [List.flatMap_cons, commands_append, ih]

theorem calls_flatMap {α : Type} (g : Fn) (l : List α) (f : α → List Event) :
    calls g (l.flatMap f) = l.flatMap (fun e => calls g (f e)) := by
  induction l with
  | nil => rfl
  | cons e l ih => simp [List.flatMap_cons, calls_append, ih]

theorem flatMap_single {α β : Type} (l : List α) (f : α → β) :
    l.flatMap (fun e => [f e]) = l.map f := by
  induction l with
  | nil => rfl
  | cons e l ih => simp [List.flatMap_cons, ih]

theorem calls_DisplayPick (pin itone speakerPin duration : Int) :
    calls .DisplayPick (DisplayPick pin itone speakerPin duration) =
      [[pin, itone, speakerPin, duration]] := by
  simp [DisplayPick, ToneOut, BlinkPin, calls]

/-- C7: for a pick array of length `ROUNDS` whose entries are `-1` or channel indices,
`DisplayAllPicks` calls `DisplayPick` once per entry other than `-1`, in array order,
on that entry's LED pin and note, and nothing else reaches the hardware: per such
entry a tone of the configured duration on the speaker pin, the LED on for the
duration, then off and a 100 ms gap. -/
theorem DisplayAllPicks_pulses (aLEDs aTones RoundPick : List Int) (speakerPin duration : Int)
    (hL : aLEDs.length = PINS) (hT : aTones.length = PINS) (hR : RoundPick.length = ROUNDS)
    (hE : ∀ e ∈ RoundPick, e = -1 ∨ (0 ≤ e ∧ e < PINS)) :
    ∃ out, DisplayAllPicks aLEDs aTones RoundPick speakerPin duration = .ok out ∧
      calls .DisplayPick out =
        (RoundPick.filter (fun e => decide (e ≠ -1))).map
          (fun e => [aLEDs.getD e.toNat 0, aTones.getD e.toNat 0, speakerPin, duration]) ∧
      commands out =
        (RoundPick.filter (fun e => decide (e ≠ -1))).flatMap
          (fun e => [.noTone speakerPin, .tone speakerPin (aTones.getD e.toNat 0) duration,
            .digitalWrite (aLEDs.getD e.toNat 0) HIGH, .delay duration,
            .digitalWrite (aLEDs.getD e.toNat 0) LOW, .delay 100]) := by
  have h := DisplayAllPicks_forLoop_ok aLEDs aTones RoundPick speakerPin duration hL hT hE
    ROUNDS 0 (by omega)
  refine ⟨_, by rw [DisplayAllPicks, h]; rfl, ?_, ?_⟩
  · rw [List.drop_zero]
    simp only [calls, if_neg (show Fn.DisplayAllPicks ≠ Fn.DisplayPick by decide)]
    rw [calls_flatMap]
    simp only [calls_DisplayPick]
    exact flatMap_single _ _
  · rw [List.drop_zero]
    simp only [commands]
    rw [commands_flatMap]
    simp [commands_DisplayPick, pulse]

theorem DisplayAllPicks_pulses_witness :
    ∃ out, DisplayAllPicks [2, 3, 4] [277, 349, 415] [1, 0, 2] 10 1500 = .ok out ∧
      calls .DisplayPick out = [[3, 349, 10, 1500], [2, 277, 10, 1500], [4, 415, 10, 1500]] ∧
      commands out =
        [.noTone 10, .tone 10 349 1500, .digitalWrite 3 HIGH, .delay 1500, .digitalWrite 3 LOW, .delay 100,
         .noTone 10, .tone 10 277 1500, .digitalWrite 2 HIGH, .delay 1500, .digitalWrite 2 LOW, .delay 100,
         .noTone 10, .tone 10 415 1500, .digitalWrite 4 HIGH, .delay 1500, .digitalWrite 4 LOW, .delay 100] :=
  DisplayAllPicks_pulses [2, 3, 4] [277, 349, 415] [1, 0, 2] 10 1500 rfl rfl rfl (by decide)


/-! ## The world streams -/

@[simp] theorem skip_skip (w : World) (a b c a' b' c' : Nat) :
    (w.skip a b c).skip a' b' c' = w.skip (a' + a) (b' + b) (c' + c) := by
  simp [World.skip, Nat.add_assoc]

@[simp] theorem skip_zero (w : World) : w.skip 0 0 0 = w := by
  cases w; simp [World.skip]

@[simp] theorem skip_mem (w : World) (a b c : Nat) : (w.skip a b c).mem = w.mem := rfl

@[simp] theorem skip_stack (w : World) (a b c : Nat) : (w.skip a b c).stack = w.stack := rfl

@[simp] theorem skip_switches (w : World) (a b c k : Nat) :
    (w.skip a b c).switches k = w.switches (k + a) := rfl

@[simp] theorem skip_clock (w : World) (a b c k : Nat) :
    (w.skip a b c).clock k = w.clock (k + b) := rfl

@[simp] theorem skip_dice (w : World) (a b c k : Nat) :
    (w.skip a b c).dice k = w.dice (k + c) := rfl

/-! ## One poll pass -/

theorem detect_quiet (aSwitches : List Int) :
    ∀ n (sw : Nat → Int → Int) i state,
      (∀ k, k < n → sw k (aSwitches.getD (i + k) 0) ≠ LOW) →
      detect aSwitches sw n i state = state := by
  intro n
  induction n with
  | zero => intro sw i state _; rfl
  | succ n ih =>
    intro sw i state h
    have h0 := h 0 (by omega)
    rw [Nat.add_zero] at h0
    rw [detect, if_neg h0]
    apply ih
    intro k hk
    have := h (k + 1) (by omega)
    rwa [show i + (k + 1) = i + 1 + k by omega] at this

theorem detect_last (aSwitches : List Int) :
    ∀ n (sw : Nat → Int → Int) i state,
      (∃ k, k < n ∧ sw k (aSwitches.getD (i + k) 0) = LOW) →
      ∃ k, k < n ∧ detect aSwitches sw n i state = ((i + k : Nat) : Int) ∧
        sw k (aSwitches.getD (i + k) 0) = LOW ∧
        ∀ k', k < k' → k' < n → sw k' (aSwitches.getD (i + k') 0) ≠ LOW := by
  intro n
  induction n with
  | zero => intro sw i state ⟨k, hk, _⟩; omega
  | succ n ih =>
    intro sw i state hex
    rw [detect]
    by_cases hlater : ∃ k, k < n ∧ sw (k + 1) (aSwitches.getD (i + 1 + k) 0) = LOW
    · obtain ⟨k, hk, hd, hp, hmax⟩ := ih (fun k => sw (k + 1)) (i + 1)
        (if sw 0 (aSwitches.getD i 0) = LOW then (i : Int) else state) hlater
      refine ⟨k + 1, by omega, ?_, ?_, ?_⟩
      · rw [hd]; congr 1; omega
      · rw [show i + (k + 1) = i + 1 + k by omega]; exact hp
      · intro k' h1 h2
        obtain ⟨j, rfl⟩ : ∃ j, k' = j + 1 := ⟨k' - 1, by omega⟩
        have := hmax j (by omega) (by omega)
        rwa [show i + (j + 1) = i + 1 + j by omega]
    · have hfirst : sw 0 (aSwitches.getD i 0) = LOW := by
        obtain ⟨k, hk, hp⟩ := hex
        rcases Nat.eq_zero_or_pos k with h0 | hpos
        · subst h0; simpa using hp
        · exfalso
          apply hlater
          refine ⟨k - 1, by omega, ?_⟩
          rw [show k - 1 + 1 = k by omega, show i + 1 + (k - 1) = i + k by omega]
          exact hp
      have hq : ∀ k, k < n → (fun k => sw (k + 1)) k (aSwitches.getD (i + 1 + k) 0) ≠ LOW := by
        intro k hk hp
        exact hlater ⟨k, hk, hp⟩
      rw [detect_quiet aSwitches n _ _ _ hq, if_pos hfirst]
      refine ⟨0, by omega, by simp, by simpa using hfirst, ?_⟩
      intro k' h1 h2 hp
      apply hlater
      refine ⟨k' - 1, by omega, ?_⟩
      rw [show k' - 1 + 1 = k' by omega, show i + 1 + (k' - 1) = i + k' by omega]
      exact hp

theorem SyncIO_eq (btnPin ledPin speakerPin itone : Int) (w : World) :
    SyncIO btnPin ledPin speakerPin itone w =
      (if w.switches 0 btnPin = LOW then 1 else 0, w.skip 1 0 0,
        if w.switches 0 btnPin = LOW then
          [.enter Fn.SyncIO [btnPin, ledPin, speakerPin, itone], .digitalWrite ledPin HIGH,
           .enter .ToneOut [speakerPin, itone, 200], .noTone speakerPin, .tone speakerPin itone 200,
           .ret Fn.SyncIO 1]
        else
          [.enter Fn.SyncIO [btnPin, ledPin, speakerPin, itone], .digitalWrite ledPin LOW,
           .ret Fn.SyncIO 0]) := by
  unfold SyncIO digitalRead
  by_cases h : w.switches 0 btnPin = LOW <;> simp [h, ToneOut]

theorem pollLog_nil : PollLog [] [] := ⟨rfl, fun _ _ _ => rfl, fun _ _ => rfl⟩

theorem pollLog_append {a b : List Event} {ca cb : List (List Int)}
    (ha : PollLog a ca) (hb : PollLog b cb) : PollLog (a ++ b) (ca ++ cb) :=
  ⟨by rw [calls_append, ha.sync, hb.sync],
   fun f h1 h2 => by rw [calls_append, ha.others f h1 h2, hb.others f h1 h2]; rfl,
   fun f h1 => by rw [rets_append, ha.noRet f h1, hb.noRet f h1]; rfl⟩

theorem SyncIO_log (btnPin ledPin speakerPin itone : Int) (w : World) :
    PollLog ( SyncIO btnPin ledPin speakerPin itone w).2.2 [[btnPin, ledPin, speakerPin, itone]] := by
  rw [SyncIO_eq]
  by_cases h : w.switches 0 btnPin = LOW
  · simp only [h, if_true]
    refine ⟨by simp [calls], ?_, ?_⟩
    · intro f h1 h2
      simp [calls, Ne.symm h1, Ne.symm h2]
    · intro f h1
      simp [rets, Ne.symm h1]
  · simp only [h, if_false]
    refine ⟨by simp [calls], ?_, ?_⟩
    · intro f h1 h2
      simp [calls, Ne.symm h1]
    · intro f h1
      simp [rets, Ne.symm h1]

theorem ButtonListener_forLoop_ok (aSwitches aLEDs aTones : List Int) (speakerPin : Int)
    (hS : aSwitches.length = PINS) (hL : aLEDs.length = PINS) (hT : aTones.length = PINS) :
    ∀ n i state w, i + n ≤ PINS →
      ∃ out, ButtonListener.forLoop aSwitches aLEDs aTones speakerPin n i state w =
          .ok (detect aSwitches w.switches n i state, w.skip n 0 0, out) ∧
        PollLog out ((List.range' i n).map
          (fun c => [aSwitches.getD c 0, aLEDs.getD c 0, aTones.getD c 0, speakerPin])) := by
  intro n
  induction n with
  | zero =>
    intro i state w _
    exact ⟨[], by simp [ButtonListener.forLoop, detect], pollLog_nil⟩
  | succ n ih =>
    intro i state w hi
    rw [ButtonListener.forLoop, index_nat _ _ (by omega), index_nat _ _ (by omega),
      index_nat _ _ (by omega)]
    simp only [ok_bind]
    have hlog := SyncIO_log (aSwitches.getD i 0) (aLEDs.getD i 0) (aTones.getD i 0) speakerPin w
    rw [SyncIO_eq] at hlog ⊢
    obtain ⟨out2, h2, hlog2⟩ := ih (i + 1)
      (if (if w.switches 0 (aSwitches.getD i 0) = LOW then (1 : Int) else 0) = 1 then (i : Int) else state)
      (w.skip 1 0 0) (by omega)
    simp only [] at hlog ⊢
    rw [h2]
    refine ⟨_, ?_, by simpa [List.range'_succ] using pollLog_append hlog hlog2⟩
    simp only [ok_bind, skip_skip, detect]
    have : (fun k => w.switches (k + 1)) = (w.skip 1 0 0).switches := rfl
    rw [this]
    by_cases hp : w.switches 0 (aSwitches.getD i 0) = LOW <;> simp [hp]

/-! ## The capture loop -/

theorem detect_range (aSwitches : List Int) (sw : Nat → Int → Int) (n i : Nat) (state : Int) :
    detect aSwitches sw n i state = state ∨
      ((i : Int) ≤ detect aSwitches sw n i state ∧ detect aSwitches sw n i state < ((i + n : Nat) : Int)) := by
  by_cases h : ∃ k, k < n ∧ sw k (aSwitches.getD (i + k) 0) = LOW
  · obtain ⟨k, hk, hd, _, _⟩ := detect_last aSwitches n sw i state h
    right
    rw [hd]
    constructor
    · exact_mod_cast Nat.le_add_right i k
    · exact_mod_cast (by omega : i + k < i + n)
  · left
    apply detect_quiet
    intro k hk hp
    exact h ⟨k, hk, hp⟩

theorem whileLoop_done (pickTimeout : Int) (aSwitches aLEDs aTones : List Int)
    (speakerPin lngStartTime : Int) (fuel : Nat) (state : Int) (w : World) (h : state ≠ -1) :
    ButtonListener.whileLoop pickTimeout aSwitches aLEDs aTones speakerPin lngStartTime fuel state w =
      .ok (state, w, []) := by
  unfold ButtonListener.whileLoop
  rw [if_neg h]

theorem whileLoop_returns (pickTimeout : Int) (aSwitches aLEDs aTones : List Int)
    (speakerPin lngStartTime : Int)
    (hS : aSwitches.length = PINS) (hL : aLEDs.length = PINS) (hT : aTones.length = PINS) :
    ∀ n w fuel, n + 1 ≤ fuel →
      (∀ p, p < n → (∀ c, c < PINS → ¬ pressedIn aSwitches w p c) ∧
        ¬ toLong (toLong (toULong (w.clock p)) - lngStartTime) > pickTimeout) →
      ((∃ c, c < PINS ∧ pressedIn aSwitches w n c) ∨
        toLong (toLong (toULong (w.clock n)) - lngStartTime) > pickTimeout) →
      ∃ out, ButtonListener.whileLoop pickTimeout aSwitches aLEDs aTones speakerPin lngStartTime
            fuel (-1) w =
          .ok (detect aSwitches (w.skip (PINS * n) 0 0).switches PINS 0 (-1),
            w.skip (PINS * (n + 1)) (n + 1) 0, out) ∧
        PollLog out
          (List.replicate (n + 1) (passCalls aSwitches aLEDs aTones speakerPin)).flatten := by
  intro n
  induction n with
  | zero =>
    intro w fuel hf _ hend
    obtain ⟨f, rfl⟩ : ∃ f, fuel = f + 1 := ⟨fuel - 1, by omega⟩
    obtain ⟨out1, h1, hlog1⟩ := ButtonListener_forLoop_ok aSwitches aLEDs aTones speakerPin hS hL hT
      PINS 0 (-1) w (by omega)
    unfold ButtonListener.whileLoop
    simp only [if_true, h1, ok_bind, millis, skip_clock, skip_skip]
    by_cases hto : toLong (toLong (toULong (w.clock 0)) - lngStartTime) > pickTimeout
    · refine ⟨out1, ?_, by simpa [passCalls] using hlog1⟩
      simp [hto]
    · have hpress : ∃ k, k < PINS ∧ w.switches k (aSwitches.getD (0 + k) 0) = LOW := by
        rcases hend with ⟨c, hc, hp⟩ | h
        · exact ⟨c, hc, by simpa [pressedIn] using hp⟩
        · exact absurd h hto
      obtain ⟨k, hk, hd, _, _⟩ := detect_last aSwitches PINS w.switches 0 (-1) hpress
      have hne : detect aSwitches w.switches PINS 0 (-1) ≠ -1 := by
        rw [hd]; omega
      refine ⟨out1, ?_, by simpa [passCalls] using hlog1⟩
      simp [hto, whileLoop_done _ _ _ _ _ _ _ _ _ hne]
  | succ n ih =>
    intro w fuel hf hquiet hend
    obtain ⟨f, rfl⟩ : ∃ f, fuel = f + 1 := ⟨fuel - 1, by omega⟩
    obtain ⟨out1, h1, hlog1⟩ := ButtonListener_forLoop_ok aSwitches aLEDs aTones speakerPin hS hL hT
      PINS 0 (-1) w (by omega)
    obtain ⟨hq0, hto0⟩ := hquiet 0 (by omega)
    have hd0 : detect aSwitches w.switches PINS 0 (-1) = -1 := by
      apply detect_quiet
      intro k hk hp
      exact hq0 k hk (by simpa [pressedIn] using hp)
    obtain ⟨out2, h2, hlog2⟩ := ih (w.skip PINS 1 0) f (by omega)
      (by
        intro p hp
        obtain ⟨hq, hto⟩ := hquiet (p + 1) (by omega)
        refine ⟨?_, by simpa using hto⟩
        intro c hc hpr
        apply hq c hc
        simp only [pressedIn, skip_switches] at hpr ⊢
        rwa [show PINS * (p + 1) + c = PINS * p + c + PINS by ring])
      (by
        rcases hend with ⟨c, hc, hpr⟩ | hto
        · left
          refine ⟨c, hc, ?_⟩
          simp only [pressedIn, skip_switches] at hpr ⊢
          rwa [show PINS * (n + 1) + c = PINS * n + c + PINS by ring] at hpr
        · right; simpa using hto)
    unfold ButtonListener.whileLoop
    simp only [if_true, h1, ok_bind, millis, skip_clock, skip_skip, hd0]
    rw [if_neg (by simpa using hto0)]
    simp only [Nat.add_zero, Nat.zero_add] at h2 ⊢
    rw [h2]
    refine ⟨out1 ++ out2, ?_, ?_⟩
    · simp only [ok_bind, skip_skip]
      rw [show PINS * n + PINS = PINS * (n + 1) by ring,
        show PINS * (n + 1) + PINS = PINS * (n + 1 + 1) by ring]
      rfl
    · have := pollLog_append hlog1 hlog2
      simpa [passCalls, List.replicate_succ] using this

theorem whileLoop_spins (pickTimeout : Int) (aSwitches aLEDs aTones : List Int)
    (speakerPin lngStartTime : Int)
    (hS : aSwitches.length = PINS) (hL : aLEDs.length = PINS) (hT : aTones.length = PINS) :
    ∀ fuel w,
      (∀ p, (∀ c, c < PINS → ¬ pressedIn aSwitches w p c) ∧
        ¬ toLong (toLong (toULong (w.clock p)) - lngStartTime) > pickTimeout) →
      ButtonListener.whileLoop pickTimeout aSwitches aLEDs aTones speakerPin lngStartTime
        fuel (-1) w = .error .outOfFuel := by
  intro fuel
  induction fuel with
  | zero => intro w _; unfold ButtonListener.whileLoop; simp
  | succ f ih =>
    intro w hquiet
    obtain ⟨out1, h1, -⟩ := ButtonListener_forLoop_ok aSwitches aLEDs aTones speakerPin hS hL hT
      PINS 0 (-1) w (by omega)
    obtain ⟨hq0, hto0⟩ := hquiet 0
    have hd0 : detect aSwitches w.switches PINS 0 (-1) = -1 := by
      apply detect_quiet
      intro k hk hp
      exact hq0 k hk (by simpa [pressedIn] using hp)
    have h2 := ih (w.skip PINS 1 0) (by
      intro p
      obtain ⟨hq, hto⟩ := hquiet (p + 1)
      refine ⟨?_, by simpa using hto⟩
      intro c hc hpr
      apply hq c hc
      simp only [pressedIn, skip_switches] at hpr ⊢
      rwa [show PINS * (p + 1) + c = PINS * p + c + PINS by ring])
    unfold ButtonListener.whileLoop
    simp only [if_true, h1, ok_bind, millis, skip_clock, skip_skip, hd0]
    rw [if_neg (by simpa using hto0)]
    simp only [Nat.add_zero, Nat.zero_add] at h2 ⊢
    rw [h2]
    rfl

theorem whileLoop_inv (pickTimeout : Int) (aSwitches aLEDs aTones : List Int)
    (speakerPin lngStartTime : Int)
    (hS : aSwitches.length = PINS) (hL : aLEDs.length = PINS) (hT : aTones.length = PINS) :
    ∀ fuel state w r w' out,
      ButtonListener.whileLoop pickTimeout aSwitches aLEDs aTones speakerPin lngStartTime
        fuel state w = .ok (r, w', out) →
      (∃ a b, w' = w.skip a b 0) ∧ (r = state ∨ (0 ≤ r ∧ r < PINS)) ∧ ∃ cs, PollLog out cs := by
  intro fuel
  induction fuel with
  | zero =>
    intro state w r w' out h
    unfold ButtonListener.whileLoop at h
    by_cases hs : state = -1
    · simp [hs] at h
    · simp only [if_neg hs, Except.ok.injEq, Prod.mk.injEq] at h
      obtain ⟨rfl, rfl, rfl⟩ := h
      exact ⟨⟨0, 0, by simp⟩, Or.inl rfl, [], pollLog_nil⟩
  | succ f ih =>
    intro state w r w' out h
    unfold ButtonListener.whileLoop at h
    by_cases hs : state = -1
    · subst hs
      obtain ⟨out1, h1, hlog1⟩ := ButtonListener_forLoop_ok aSwitches aLEDs aTones speakerPin hS hL hT
        PINS 0 (-1) w (by omega)
      have hrange := detect_range aSwitches w.switches PINS 0 (-1)
      simp only [if_true, h1, ok_bind, millis, skip_clock, skip_skip] at h
      split at h
      · simp only [Except.ok.injEq, Prod.mk.injEq] at h
        obtain ⟨rfl, rfl, rfl⟩ := h
        refine ⟨⟨_, _, rfl⟩, ?_, _, hlog1⟩
        rcases hrange with h | h
        · exact Or.inl h
        · exact Or.inr ⟨by simpa using h.1, by simpa using h.2⟩
      · cases hrec : ButtonListener.whileLoop pickTimeout aSwitches aLEDs aTones speakerPin lngStartTime
            f (detect aSwitches w.switches PINS 0 (-1)) (w.skip (0 + PINS) (1 + 0) (0 + 0)) with
        | error e => rw [hrec] at h; simp at h
        | ok res =>
          obtain ⟨r3, w3, out3⟩ := res
          rw [hrec] at h
          simp only [ok_bind, Except.ok.injEq, Prod.mk.injEq] at h
          obtain ⟨rfl, rfl, rfl⟩ := h
          obtain ⟨⟨a, b, hw⟩, hr, cs, hlog3⟩ := ih _ _ _ _ _ hrec
          refine ⟨⟨_, _, by rw [hw, skip_skip]⟩, ?_, _, pollLog_append hlog1 hlog3⟩
          rcases hr with h | h
          · rw [h]
            rcases hrange with h | h
            · exact Or.inl h
            · exact Or.inr ⟨by simpa using h.1, by simpa using h.2⟩
          · exact Or.inr h
    · simp only [if_neg hs, Except.ok.injEq, Prod.mk.injEq] at h
      obtain ⟨rfl, rfl, rfl⟩ := h
      exact ⟨⟨0, 0, by simp⟩, Or.inl rfl, [], pollLog_nil⟩

/-! ## `ButtonListener` as a whole -/

theorem listenLog_of_poll {out : List Event} {cs : List (List Int)} (h : PollLog out cs)
    (args : List Int) (r : Int) :
    ListenLog (.enter .ButtonListener args :: (out ++ [.ret .ButtonListener r])) args r ∧
      calls Fn.SyncIO (.enter .ButtonListener args :: (out ++ [.ret .ButtonListener r])) = cs := by
  refine ⟨⟨?_, ?_, ?_, ?_⟩, ?_⟩
  · simp [calls, calls_append, h.others .ButtonListener (by decide) (by decide)]
  · simp [rets, rets_append, h.noRet .ButtonListener (by decide)]
  · intro f h1 h2 h3
    simp [calls, calls_append, h.others f h2 h3, Ne.symm h1]
  · intro f h1 h2
    simp [rets, rets_append, h.noRet f h2, Ne.symm h1]
  · simp [calls, calls_append, h.sync]

theorem ButtonListener_returns (pickTimeout : Int) (aSwitches aLEDs aTones : List Int)
    (speakerPin : Int)
    (hS : aSwitches.length = PINS) (hL : aLEDs.length = PINS) (hT : aTones.length = PINS)
    (w : World) (n fuel : Nat) (hf : n + 1 ≤ fuel)
    (hquiet : ∀ p, p < n → (∀ c, c < PINS → ¬ pressedIn aSwitches w p c) ∧
      ¬ elapsed (w.clock 0) (w.clock (p + 1)) > pickTimeout)
    (hend : (∃ c, c < PINS ∧ pressedIn aSwitches w n c) ∨
      elapsed (w.clock 0) (w.clock (n + 1)) > pickTimeout) :
    ∃ out, ButtonListener fuel pickTimeout aSwitches aLEDs aTones speakerPin w =
        .ok (detect aSwitches (w.skip (PINS * n) 0 0).switches PINS 0 (-1),
          w.skip (PINS * (n + 1)) (n + 2) 0, out) ∧
      calls Fn.SyncIO out =
        (List.replicate (n + 1) (passCalls aSwitches aLEDs aTones speakerPin)).flatten ∧
      ListenLog out [pickTimeout, speakerPin]
        (detect aSwitches (w.skip (PINS * n) 0 0).switches PINS 0 (-1)) := by
  obtain ⟨out, h, hlog⟩ := whileLoop_returns pickTimeout aSwitches aLEDs aTones speakerPin
    (toLong (toULong (w.clock 0))) hS hL hT n (w.skip 0 1 0) fuel hf
    (by
      intro p hp
      obtain ⟨hq, hto⟩ := hquiet p hp
      exact ⟨fun c hc hpr => hq c hc (by simpa [pressedIn] using hpr), by simpa [elapsed] using hto⟩)
    (by
      rcases hend with ⟨c, hc, hpr⟩ | hto
      · exact Or.inl ⟨c, hc, by simpa [pressedIn] using hpr⟩
      · exact Or.inr (by simpa [elapsed] using hto))
  obtain ⟨hl, hs⟩ := listenLog_of_poll hlog [pickTimeout, speakerPin]
    (detect aSwitches (w.skip (PINS * n) 0 0).switches PINS 0 (-1))
  refine ⟨_, ?_, hs, hl⟩
  unfold ButtonListener
  simp only [millis, ok_bind]
  rw [h]
  simp only [ok_bind, skip_skip]
  rfl

theorem ButtonListener_spins (pickTimeout : Int) (aSwitches aLEDs aTones : List Int)
    (speakerPin : Int)
    (hS : aSwitches.length = PINS) (hL : aLEDs.length = PINS) (hT : aTones.length = PINS)
    (w : World)
    (hquiet : ∀ p, (∀ c, c < PINS → ¬ pressedIn aSwitches w p c) ∧
      ¬ elapsed (w.clock 0) (w.clock (p + 1)) > pickTimeout) (fuel : Nat) :
    ButtonListener fuel pickTimeout aSwitches aLEDs aTones speakerPin w = .error .outOfFuel := by
  have h := whileLoop_spins pickTimeout aSwitches aLEDs aTones speakerPin
    (toLong (toULong (w.clock 0))) hS hL hT fuel (w.skip 0 1 0)
    (by
      intro p
      obtain ⟨hq, hto⟩ := hquiet p
      exact ⟨fun c hc hpr => hq c hc (by simpa [pressedIn] using hpr), by simpa [elapsed] using hto⟩)
  unfold ButtonListener
  simp only [millis, ok_bind]
  rw [h]
  rfl

theorem ButtonListener_inv (pickTimeout : Int) (aSwitches aLEDs aTones : List Int)
    (speakerPin : Int)
    (hS : aSwitches.length = PINS) (hL : aLEDs.length = PINS) (hT : aTones.length = PINS)
    (fuel : Nat) (w : World) (r : Int) (w' : World) (out : List Event)
    (h : ButtonListener fuel pickTimeout aSwitches aLEDs aTones speakerPin w = .ok (r, w', out)) :
    (∃ a b, w' = w.skip a b 0) ∧ (r = -1 ∨ (0 ≤ r ∧ r < PINS)) ∧
      ListenLog out [pickTimeout, speakerPin] r := by
  unfold ButtonListener at h
  simp only [millis, ok_bind] at h
  cases hrec : ButtonListener.whileLoop pickTimeout aSwitches aLEDs aTones speakerPin
      (toLong (toULong (w.clock 0))) fuel (-1) (w.skip 0 1 0) with
  | error e => rw [hrec] at h; simp at h
  | ok res =>
    obtain ⟨r1, w1, out1⟩ := res
    rw [hrec] at h
    simp only [ok_bind, Except.ok.injEq, Prod.mk.injEq] at h
    obtain ⟨rfl, rfl, rfl⟩ := h
    obtain ⟨⟨a, b, hw⟩, hr, cs, hlog⟩ := whileLoop_inv pickTimeout aSwitches aLEDs aTones speakerPin
      _ hS hL hT _ _ _ _ _ _ hrec
    exact ⟨⟨_, _, by rw [hw, skip_skip]⟩, hr, (listenLog_of_poll hlog _ _).1⟩

/-! ## Claims about `ButtonListener` and `SyncIO` -/

theorem elapsed_exact (a b : Int) (hab : a ≤ b) (hd : b - a < 2147483648) :
    elapsed a b = b - a := by
  unfold elapsed toLong toULong
  omega

/-- C2 (as the code has it): in the poll pass `n` in which one or more channels read
pressed, `ButtonListener` samples every channel, in index order, returns the
highest-indexed pressed channel, and ends the capture at the end of that pass. -/
theorem ButtonListener_returns_last_pressed (pickTimeout : Int)
    (aSwitches aLEDs aTones : List Int) (speakerPin : Int)
    (hS : aSwitches.length = PINS) (hL : aLEDs.length = PINS) (hT : aTones.length = PINS)
    (w : World) (n fuel : Nat) (hf : n + 1 ≤ fuel)
    (hquiet : ∀ p, p < n → (∀ c, c < PINS → ¬ pressedIn aSwitches w p c) ∧
      ¬ elapsed (w.clock 0) (w.clock (p + 1)) > pickTimeout)
    (hpress : ∃ c, c < PINS ∧ pressedIn aSwitches w n c) :
    ∃ c out, c < PINS ∧ pressedIn aSwitches w n c ∧
      (∀ c', c < c' → c' < PINS → ¬ pressedIn aSwitches w n c') ∧
      ButtonListener fuel pickTimeout aSwitches aLEDs aTones speakerPin w =
        .ok ((c : Int), w.skip (PINS * (n + 1)) (n + 2) 0, out) ∧
      calls Fn.SyncIO out =
        (List.replicate (n + 1)
          [[aSwitches.getD 0 0, aLEDs.getD 0 0, aTones.getD 0 0, speakerPin],
           [aSwitches.getD 1 0, aLEDs.getD 1 0, aTones.getD 1 0, speakerPin],
           [aSwitches.getD 2 0, aLEDs.getD 2 0, aTones.getD 2 0, speakerPin]]).flatten := by
  obtain ⟨out, h, hs, -⟩ := ButtonListener_returns pickTimeout aSwitches aLEDs aTones speakerPin
    hS hL hT w n fuel hf hquiet (Or.inl hpress)
  obtain ⟨k, hk, hd, hp, hmax⟩ := detect_last aSwitches PINS (w.skip (PINS * n) 0 0).switches 0 (-1)
    (by
      obtain ⟨c, hc, hpr⟩ := hpress
      exact ⟨c, hc, by simpa [pressedIn, Nat.add_comm] using hpr⟩)
  refine ⟨k, out, hk, ?_, ?_, ?_, ?_⟩
  · simpa [pressedIn, Nat.add_comm] using hp
  · intro c' h1 h2 hpr
    exact hmax c' h1 h2 (by simpa [pressedIn, Nat.add_comm] using hpr)
  · rw [h, hd]; simp
  · rw [hs]; rfl

theorem ButtonListener_returns_last_pressed_witness :
    ∃ c out, c < PINS ∧
      pressedIn [6, 7, 8] (steadyWorld (sketchGlobals 277 349 415) LOW 8 0) 0 c ∧
      (∀ c', c < c' → c' < PINS →
        ¬ pressedIn [6, 7, 8] (steadyWorld (sketchGlobals 277 349 415) LOW 8 0) 0 c') ∧
      ButtonListener 1 6000 [6, 7, 8] [2, 3, 4] [277, 349, 415] 10
          (steadyWorld (sketchGlobals 277 349 415) LOW 8 0) =
        .ok ((c : Int), (steadyWorld (sketchGlobals 277 349 415) LOW 8 0).skip (PINS * (0 + 1)) (0 + 2) 0, out) ∧
      calls Fn.SyncIO out =
        (List.replicate (0 + 1)
          [[([6, 7, 8] : List Int).getD 0 0, ([2, 3, 4] : List Int).getD 0 0,
              ([277, 349, 415] : List Int).getD 0 0, 10],
           [([6, 7, 8] : List Int).getD 1 0, ([2, 3, 4] : List Int).getD 1 0,
              ([277, 349, 415] : List Int).getD 1 0, 10],
           [([6, 7, 8] : List Int).getD 2 0, ([2, 3, 4] : List Int).getD 2 0,
              ([277, 349, 415] : List Int).getD 2 0, 10]]).flatten :=
  ButtonListener_returns_last_pressed 6000 [6, 7, 8] [2, 3, 4] [277, 349, 415] 10 rfl rfl rfl
    (steadyWorld (sketchGlobals 277 349 415) LOW 8 0) 0 1 (by omega)
    (fun p hp => absurd hp (by omega)) ⟨0, by decide, by decide⟩

/-- C2 (counterexample): channels 0 and 2 both read pressed in the first poll pass.
The lowest-indexed pressed channel is 0, yet `ButtonListener` returns 2, and after
the hit on channel 0 it still calls `SyncIO` on channels 1 and 2 in the same pass. -/
theorem ButtonListener_first_hit_counterexample :
    pressedIn [6, 7, 8] (steadyWorld (sketchGlobals 277 349 415) LOW 7 0) 0 0 ∧
    ∃ out, ButtonListener 1 6000 [6, 7, 8] [2, 3, 4] [277, 349, 415] 10
        (steadyWorld (sketchGlobals 277 349 415) LOW 7 0) =
          .ok (2, (steadyWorld (sketchGlobals 277 349 415) LOW 7 0).skip 3 2 0, out) ∧
      calls Fn.SyncIO out = [[6, 2, 277, 10], [7, 3, 349, 10], [8, 4, 415, 10]] := by
  obtain ⟨out, h, hs, -⟩ := ButtonListener_returns 6000 [6, 7, 8] [2, 3, 4] [277, 349, 415] 10
    rfl rfl rfl (steadyWorld (sketchGlobals 277 349 415) LOW 7 0) 0 1 (by omega)
    (fun p hp => absurd hp (by omega)) (Or.inl ⟨0, by decide, by decide⟩)
  refine ⟨by decide, out, ?_, ?_⟩
  · rw [h]; rfl
  · rw [hs]; rfl

/-- C3 (what the code does): the call `SyncIO(btnPin, ledPin, itone, speakerPin)` that
`ButtonListener` makes for channel `i` binds the channel's note to the parameter
`speakerPin` and the speaker pin to the parameter `itone`.  When the switch reads
pressed the LED goes on and 1 is returned (the channel becomes the pick), but the
tone is commanded on pin `aTones[i]` with frequency `speakerPin`; when it does not,
the LED goes off, no tone is commanded and 0 is returned. -/
theorem ButtonListener_SyncIO_call (aSwitches aLEDs aTones : List Int) (speakerPin : Int)
    (hS : aSwitches.length = PINS) (hL : aLEDs.length = PINS) (hT : aTones.length = PINS)
    (i : Nat) (hi : i < PINS) (state : Int) (w : World) :
    ButtonListener.forLoop aSwitches aLEDs aTones speakerPin 1 i state w =
      .ok (if w.switches 0 (aSwitches.getD i 0) = LOW then (i : Int) else state, w.skip 1 0 0,
        if w.switches 0 (aSwitches.getD i 0) = LOW then
          [.enter Fn.SyncIO [aSwitches.getD i 0, aLEDs.getD i 0, aTones.getD i 0, speakerPin],
           .digitalWrite (aLEDs.getD i 0) HIGH,
           .enter .ToneOut [aTones.getD i 0, speakerPin, 200],
           .noTone (aTones.getD i 0),
           .tone (aTones.getD i 0) speakerPin 200,
           .ret Fn.SyncIO 1]
        else
          [.enter Fn.SyncIO [aSwitches.getD i 0, aLEDs.getD i 0, aTones.getD i 0, speakerPin],
           .digitalWrite (aLEDs.getD i 0) LOW,
           .ret Fn.SyncIO 0]) := by
  rw [ButtonListener.forLoop, index_nat _ _ (by omega), index_nat _ _ (by omega),
    index_nat _ _ (by omega)]
  simp only [ok_bind, ButtonListener.forLoop, SyncIO_eq]
  by_cases hp : w.switches 0 (aSwitches.getD i 0) = LOW <;> simp [hp]

theorem ButtonListener_SyncIO_call_witness :
    ButtonListener.forLoop [6, 7, 8] [2, 3, 4] [277, 349, 415] 10 1 0 (-1)
        (steadyWorld (sketchGlobals 277 349 415) HIGH 6 0) =
      .ok (0, (steadyWorld (sketchGlobals 277 349 415) HIGH 6 0).skip 1 0 0,
        [.enter Fn.SyncIO [6, 2, 277, 10], .digitalWrite 2 HIGH, .enter .ToneOut [277, 10, 200],
         .noTone 277, .tone 277 10 200, .ret Fn.SyncIO 1]) := by
  rw [ButtonListener_SyncIO_call [6, 7, 8] [2, 3, 4] [277, 349, 415] 10 rfl rfl rfl 0
    (by decide) (-1) (steadyWorld (sketchGlobals 277 349 415) HIGH 6 0)]
  rfl

/-- C10 (as the code has it): for every switch stream and every non-decreasing clock
one of whose readings after the start exceeds `start + pickTimeout` while it is
still less than `2^31` ms past the start reading (the elapsed time is computed in a
signed 32-bit `long`), `ButtonListener` terminates.  It returns at the end of the
first poll pass `n` in which some channel read pressed or the clock read after the
pass is more than `pickTimeout` past the start; it has then made `n + 1 ≥ 1` full
passes over all `PINS` channels, and its result is `-1` or a channel index. -/
theorem ButtonListener_bounded_wait (pickTimeout : Int)
    (aSwitches aLEDs aTones : List Int) (speakerPin : Int)
    (hS : aSwitches.length = PINS) (hL : aLEDs.length = PINS) (hT : aTones.length = PINS)
    (w : World)
    (hmono : ∀ k, w.clock k ≤ w.clock (k + 1))
    (hev : ∃ k, w.clock (k + 1) > w.clock 0 + pickTimeout ∧
      w.clock (k + 1) - w.clock 0 < 2147483648) :
    ∃ (n : Nat) (r : Int),
      (∀ p, p < n → (∀ c, c < PINS → ¬ pressedIn aSwitches w p c) ∧
        ¬ w.clock (p + 1) - w.clock 0 > pickTimeout) ∧
      ((∃ c, c < PINS ∧ pressedIn aSwitches w n c) ∨ w.clock (n + 1) - w.clock 0 > pickTimeout) ∧
      (r = -1 ∨ (0 ≤ r ∧ r < PINS)) ∧
      ∀ fuel, n + 1 ≤ fuel →
        ∃ out, ButtonListener fuel pickTimeout aSwitches aLEDs aTones speakerPin w =
            .ok (r, w.skip (PINS * (n + 1)) (n + 2) 0, out) ∧
          (calls Fn.SyncIO out).length = PINS * (n + 1) := by
  classical
  obtain ⟨k, hk, hfit⟩ := hev
  have hex : ∃ n, (∃ c, c < PINS ∧ pressedIn aSwitches w n c) ∨
      w.clock (n + 1) - w.clock 0 > pickTimeout := ⟨k, Or.inr (by omega)⟩
  have hnk : Nat.find hex ≤ k := Nat.find_min' hex (Or.inr (by omega))
  have hmon : ∀ d i, w.clock i ≤ w.clock (i + d) := by
    intro d
    induction d with
    | zero => intro i; exact le_refl _
    | succ d ih => intro i; exact le_trans (ih i) (hmono (i + d))
  have hE : ∀ p, p ≤ k →
      elapsed (w.clock 0) (w.clock (p + 1)) = w.clock (p + 1) - w.clock 0 := by
    intro p hp
    have h1 := hmon (p + 1) 0
    have h2 := hmon (k - p) (p + 1)
    rw [Nat.zero_add] at h1
    rw [show p + 1 + (k - p) = k + 1 by omega] at h2
    exact elapsed_exact _ _ h1 (by omega)
  have hquiet : ∀ p, p < Nat.find hex → (∀ c, c < PINS → ¬ pressedIn aSwitches w p c) ∧
      ¬ w.clock (p + 1) - w.clock 0 > pickTimeout := by
    intro p hp
    have := Nat.find_min hex hp
    rw [not_or] at this
    exact ⟨fun c hc hpr => this.1 ⟨c, hc, hpr⟩, this.2⟩
  have hend := Nat.find_spec hex
  refine ⟨Nat.find hex, detect aSwitches (w.skip (PINS * Nat.find hex) 0 0).switches PINS 0 (-1),
    hquiet, hend, ?_, ?_⟩
  · rcases detect_range aSwitches (w.skip (PINS * Nat.find hex) 0 0).switches PINS 0 (-1) with h | h
    · exact Or.inl h
    · exact Or.inr ⟨by simpa using h.1, by simpa using h.2⟩
  · intro fuel hf
    obtain ⟨out, h, hs, -⟩ := ButtonListener_returns pickTimeout aSwitches aLEDs aTones speakerPin
      hS hL hT w (Nat.find hex) fuel hf
      (fun p hp => by rw [hE p (by omega)]; exact hquiet p hp)
      (by rw [hE _ hnk]; exact hend)
    refine ⟨out, h, ?_⟩
    rw [hs]
    simp [passCalls, Nat.mul_comm]

theorem ButtonListener_bounded_wait_witness :
    ∃ (n : Nat) (r : Int),
      (∀ p, p < n →
        (∀ c, c < PINS → ¬ pressedIn [6, 7, 8] (tickingWorld (sketchGlobals 277 349 415)) p c) ∧
        ¬ (tickingWorld (sketchGlobals 277 349 415)).clock (p + 1) -
            (tickingWorld (sketchGlobals 277 349 415)).clock 0 > 6000) ∧
      ((∃ c, c < PINS ∧ pressedIn [6, 7, 8] (tickingWorld (sketchGlobals 277 349 415)) n c) ∨
        (tickingWorld (sketchGlobals 277 349 415)).clock (n + 1) -
          (tickingWorld (sketchGlobals 277 349 415)).clock 0 > 6000) ∧
      (r = -1 ∨ (0 ≤ r ∧ r < PINS)) ∧
      ∀ fuel, n + 1 ≤ fuel →
        ∃ out, ButtonListener fuel 6000 [6, 7, 8] [2, 3, 4] [277, 349, 415] 10
              (tickingWorld (sketchGlobals 277 349 415)) =
            .ok (r, (tickingWorld (sketchGlobals 277 349 415)).skip (PINS * (n + 1)) (n + 2) 0, out) ∧
          (calls Fn.SyncIO out).length = PINS * (n + 1) :=
  ButtonListener_bounded_wait 6000 [6, 7, 8] [2, 3, 4] [277, 349, 415] 10 rfl rfl rfl
    (tickingWorld (sketchGlobals 277 349 415))
    (fun k => by simp only [tickingWorld, quietWorld]; push_cast; omega)
    ⟨6, by decide, by decide⟩

set_option maxRecDepth 100000 in
/-- The run of `ButtonListener` on the clock that advances one second per reading,
with `pickTimeout = 6000` and no press: it returns `-1` after exactly 7 poll passes
(21 `SyncIO` calls), when the clock reads 7000. -/
theorem ButtonListener_ticking_run :
    (ButtonListener 7 6000 [6, 7, 8] [2, 3, 4] [277, 349, 415] 10
        (tickingWorld (sketchGlobals 277 349 415))).toOption.map
      (fun x => (x.1, (calls Fn.SyncIO x.2.2).length, x.2.1.clock 0)) = some (-1, 21, 8000) ∧
    (ButtonListener 6 6000 [6, 7, 8] [2, 3, 4] [277, 349, 415] 10
        (tickingWorld (sketchGlobals 277 349 415))).toOption.map (fun x => x.1) = none := by
  decide

/-- C10 (counterexample): no switch is pressed; the clock reads 0 at the start and
`2^31 + 5` from then on, so it is non-decreasing and exceeds `start + pickTimeout`.
Stored in a `long` the later readings are negative, the elapsed time never exceeds
`pickTimeout = 6000`, and `ButtonListener` returns for no amount of fuel. -/
theorem ButtonListener_bounded_wait_counterexample :
    (∀ k, (stalledWorld (sketchGlobals 277 349 415)).clock k ≤
        (stalledWorld (sketchGlobals 277 349 415)).clock (k + 1)) ∧
    (∃ k, (stalledWorld (sketchGlobals 277 349 415)).clock k >
        (stalledWorld (sketchGlobals 277 349 415)).clock 0 + 6000) ∧
    ∀ fuel, ButtonListener fuel 6000 [6, 7, 8] [2, 3, 4] [277, 349, 415] 10
        (stalledWorld (sketchGlobals 277 349 415)) = .error .outOfFuel := by
  refine ⟨?_, ⟨1, by decide⟩, ?_⟩
  · intro k
    simp only [stalledWorld, quietWorld]
    split <;> simp
  · intro fuel
    apply ButtonListener_spins 6000 [6, 7, 8] [2, 3, 4] [277, 349, 415] 10 rfl rfl rfl
    intro p
    refine ⟨fun c _ => by simp [pressedIn, stalledWorld, quietWorld], ?_⟩
    simp [stalledWorld, quietWorld, elapsed, toLong, toULong]

/-! ## Logs of the feedback functions -/

theorem silent_nil (f : Fn) : Silent f [] := ⟨rfl, rfl⟩

theorem silent_append {f : Fn} {a b : List Event} (ha : Silent f a) (hb : Silent f b) :
    Silent f (a ++ b) :=
  ⟨by rw [calls_append, ha.1, hb.1]; rfl, by rw [rets_append, ha.2, hb.2]; rfl⟩

theorem silent_cons_command {f : Fn} {e : Event} {a : List Event}
    (he : commands [e] = [e]) (ha : Silent f a) : Silent f (e :: a) := by
  cases e <;> simp [commands] at he <;> exact ⟨by simpa [calls] using ha.1, by simpa [rets] using ha.2⟩

theorem silent_ToneOut (f : Fn) (h : f ≠ .ToneOut) (pin note duration : Int) :
    Silent f (ToneOut pin note duration) := by
  simp [Silent, ToneOut, calls, rets, Ne.symm h]

theorem silent_BlinkPin (f : Fn) (h : f ≠ .BlinkPin) (pin a b : Int) :
    Silent f (BlinkPin pin a b) := by
  simp [Silent, BlinkPin, calls, rets, Ne.symm h]

theorem silent_DisplayPick (f : Fn) (h1 : f ≠ .DisplayPick) (h2 : f ≠ .ToneOut) (h3 : f ≠ .BlinkPin)
    (pin itone speakerPin duration : Int) : Silent f (DisplayPick pin itone speakerPin duration) := by
  simp [Silent, DisplayPick, ToneOut, BlinkPin, calls, rets, Ne.symm h1, Ne.symm h2, Ne.symm h3]

theorem silent_WrongPick_forLoop (f : Fn) (h : f ≠ .ToneOut) (speakerPin : Int) (n : Nat) :
    Silent f (WrongPick.forLoop speakerPin n) := by
  induction n with
  | zero => exact silent_nil f
  | succ n ih =>
    rw [WrongPick.forLoop]
    exact silent_append (silent_append (silent_ToneOut f h _ _ _) (silent_ToneOut f h _ _ _)) ih

theorem silent_WrongPick (f : Fn) (h1 : f ≠ .WrongPick) (h2 : f ≠ .ToneOut) (mem : Globals) :
    Silent f (WrongPick mem) := by
  have := silent_WrongPick_forLoop f h2 mem.speakerPin 200
  unfold WrongPick
  generalize WrongPick.forLoop mem.speakerPin 200 = l at this
  simp [Silent, calls, rets, Ne.symm h1, this.1, this.2]

theorem calls_WrongPick (mem : Globals) : calls .WrongPick (WrongPick mem) = [[]] := by
  have := silent_WrongPick_forLoop .WrongPick (by decide) mem.speakerPin 200
  unfold WrongPick
  generalize WrongPick.forLoop mem.speakerPin 200 = l at this
  simp [calls, this.1]

theorem silent_MotorControl (f : Fn) (h : f ≠ .MotorControl) (bins : Int) :
    Silent f (MotorControl bins) := by
  simp [Silent, MotorControl, calls, rets, Ne.symm h]

theorem silent_DispenseReward (f : Fn) (h1 : f ≠ .DispenseReward) (h2 : f ≠ .MotorControl) :
    Silent f DispenseReward := by
  simp [Silent, DispenseReward, MotorControl, calls, rets, Ne.symm h1, Ne.symm h2]

theorem silent_of_listen {out : List Event} {args : List Int} {r : Int}
    (h : ListenLog out args r) (f : Fn) (h1 : f ≠ .ButtonListener) (h2 : f ≠ Fn.SyncIO)
    (h3 : f ≠ .ToneOut) : Silent f out :=
  ⟨h.others f h1 h2 h3, h.noRet f h1 h2⟩

/-! ## The comparison loop of `PlayerInput` -/

theorem responsive_later {fuel : Nat} {pickTimeout : Int} {aSwitches aLEDs aTones : List Int}
    {speakerPin : Int} {w : World}
    (h : Responsive fuel pickTimeout aSwitches aLEDs aTones speakerPin w) (a b c : Nat) :
    Responsive fuel pickTimeout aSwitches aLEDs aTones speakerPin (w.skip a b c) := by
  intro a' b' c'
  rw [skip_skip]
  exact h _ _ _

theorem responsive_here {fuel : Nat} {pickTimeout : Int} {aSwitches aLEDs aTones : List Int}
    {speakerPin : Int} {w : World}
    (h : Responsive fuel pickTimeout aSwitches aLEDs aTones speakerPin w) :
    ∃ res, ButtonListener fuel pickTimeout aSwitches aLEDs aTones speakerPin w = .ok res := by
  simpa using h 0 0 0

/-- The comparison loop in a run where every capture returns: it returns, and its
log carries the verdict on the expected picks that are left. -/
theorem PlayerInput_forLoop_ok (fuel : Nat) (RoundPick : List Int) (pickTimeout : Int)
    (aLEDs aSwitches aTones : List Int) (speakerPin duration : Int)
    (hS : aSwitches.length = PINS) (hL : aLEDs.length = PINS) (hT : aTones.length = PINS)
    (hE : ∀ e ∈ RoundPick, e = -1 ∨ (0 ≤ e ∧ e < PINS)) :
    ∀ n j w, j + n = RoundPick.length →
      Responsive fuel pickTimeout aSwitches aLEDs aTones speakerPin w →
      ∃ r w' out,
        PlayerInput.forLoop fuel RoundPick pickTimeout aLEDs aSwitches aTones speakerPin duration
          n j w = .ok (r, w', out) ∧
        (∃ a b, w' = w.skip a b 0) ∧
        Verdict aLEDs aTones speakerPin duration
          ((RoundPick.drop j).filter (fun e => decide (e ≠ -1))) r out ∧
        (∀ f, f ≠ .ButtonListener → f ≠ Fn.SyncIO → f ≠ .ToneOut → f ≠ .DisplayPick →
          f ≠ .BlinkPin → Silent f out) := by
  intro n
  induction n with
  | zero =>
    intro j w hj _
    refine ⟨0, w, [], by simp [PlayerInput.forLoop], ⟨0, 0, by simp⟩, ?_, fun f _ _ _ _ _ => silent_nil f⟩
    rw [List.drop_of_length_le (by omega)]
    exact Or.inl ⟨rfl, rfl, rfl, rfl⟩
  | succ n ih =>
    intro j w hj hresp
    have hlt : j < RoundPick.length := by omega
    have hd : RoundPick.drop j = RoundPick.getD j 0 :: RoundPick.drop (j + 1) := by
      rw [List.getD_eq_getElem _ _ hlt]; exact List.drop_eq_getElem_cons hlt
    have hmem : RoundPick.getD j 0 ∈ RoundPick := by
      rw [List.getD_eq_getElem _ _ hlt]; exact List.getElem_mem _
    rw [PlayerInput.forLoop, index_nat _ _ hlt, hd]
    generalize RoundPick.getD j 0 = x at hmem
    rcases hE _ hmem with h | ⟨h0, h1⟩
    · subst h
      obtain ⟨r, w', out, h, hw, hv, hs⟩ := ih (j + 1) w (by omega) hresp
      refine ⟨r, w', out, by simpa using h, hw, by simpa using hv, hs⟩
    · have hne : x ≠ -1 := by omega
      have hgt : x > -1 := by omega
      obtain ⟨⟨b, w1, out1⟩, hbl⟩ := responsive_here hresp
      obtain ⟨⟨a1, b1, hw1⟩, _, hlog⟩ := ButtonListener_inv pickTimeout aSwitches aLEDs aTones
        speakerPin hS hL hT fuel w b w1 out1 hbl
      rw [ok_bind, if_pos hgt, hbl, ok_bind]
      dsimp only
      rw [List.filter_cons_of_pos (by simpa using hne)]
      by_cases hb : b = x
      · subst hb
        obtain ⟨r, w', out, h, ⟨a2, b2, hw2⟩, hv, hs⟩ := ih (j + 1) w1 (by omega)
          (by rw [hw1]; exact responsive_later hresp _ _ _)
        rw [if_pos rfl, index_int _ _ h0 (by rw [hL]; exact_mod_cast h1),
          index_int _ _ h0 (by rw [hT]; exact_mod_cast h1)]
        simp only [ok_bind, h]
        have hdpS : ∀ f, f ≠ .DisplayPick → f ≠ .ToneOut → f ≠ .BlinkPin →
            Silent f (DisplayPick (aLEDs.getD b.toNat 0) (aTones.getD b.toNat 0) speakerPin duration) :=
          fun f a1 a2 a3 => silent_DisplayPick f a1 a2 a3 _ _ _ _
        have hdp1 := (silent_DisplayPick .ButtonListener (by decide) (by decide) (by decide)
          (aLEDs.getD b.toNat 0) (aTones.getD b.toNat 0) speakerPin duration)
        have hdp2 := calls_DisplayPick (aLEDs.getD b.toNat 0) (aTones.getD b.toNat 0) speakerPin duration
        have hl1 := hlog.others .DisplayPick (by decide) (by decide) (by decide)
        refine ⟨r, w', _, rfl, ⟨_, _, by rw [hw2, hw1, skip_skip]⟩, ?_, ?_⟩
        · rcases hv with ⟨hr, hrets, hcalls, hdisp⟩ | ⟨hr, m, b', hm, hb', hrets, hcalls, hdisp⟩
          · left
            refine ⟨hr, ?_, ?_, ?_⟩
            · rw [rets_append, rets_append, hlog.returned, hdp1.2, hrets]; rfl
            · rw [calls_append, calls_append, hlog.entered, hdp1.1]; simp [hcalls]
            · rw [calls_append, calls_append, hl1, hdp2, hdisp]; rfl
          · right
            refine ⟨hr, m + 1, b', by simpa using hm, by simpa using hb', ?_, ?_, ?_⟩
            · rw [rets_append, rets_append, hlog.returned, hdp1.2, hrets]; rfl
            · rw [calls_append, calls_append, hlog.entered, hdp1.1]; simp [hcalls]
            · rw [calls_append, calls_append, hl1, hdp2, hdisp]; rfl
        · intro f f1 f2 f3 f4 f5
          exact silent_append (silent_append (silent_of_listen hlog f f1 f2 f3) (hdpS f f4 f3 f5))
            (hs f f1 f2 f3 f4 f5)
      · rw [if_neg hb]
        refine ⟨-1, w1, out1, rfl, ⟨_, _, hw1⟩, ?_, ?_⟩
        · right
          refine ⟨rfl, 0, b, by simp, by simpa using hb, ?_, ?_, ?_⟩
          · simp [hlog.returned]
          · simp [hlog.entered]
          · simp [hlog.others .DisplayPick (by decide) (by decide) (by decide)]
        · intro f f1 f2 f3 _ _
          exact silent_of_listen hlog f f1 f2 f3

/-! ## `PlayerInput` as a whole -/

theorem elapsed_gt (a b t : Int) (h1 : b - a > t) (h2 : b - a < 2147483648) :
    elapsed a b > t := by
  unfold elapsed toLong toULong
  omega

theorem commands_WrongPick_forLoop (speakerPin : Int) (n : Nat) :
    commands (WrongPick.forLoop speakerPin n) =
      (List.replicate n [Event.noTone speakerPin, Event.tone speakerPin 200 50,
        Event.noTone speakerPin, Event.tone speakerPin 203 50]).flatten := by
  induction n with
  | zero => rfl
  | succ n ih =>
    rw [WrongPick.forLoop, commands_append, commands_append, ih, List.replicate_succ,
      List.flatten_cons]
    simp [ToneOut, commands]

theorem commands_WrongPick (mem : Globals) :
    commands (WrongPick mem) =
      (List.replicate 200 [Event.noTone mem.speakerPin, Event.tone mem.speakerPin 200 50,
        Event.noTone mem.speakerPin, Event.tone mem.speakerPin 203 50]).flatten := by
  unfold WrongPick
  rw [commands, commands_WrongPick_forLoop]

theorem ButtonListener_forLoop_quiet (aSwitches aLEDs aTones : List Int) (speakerPin : Int)
    (hS : aSwitches.length = PINS) (hL : aLEDs.length = PINS) (hT : aTones.length = PINS) :
    ∀ (n i : Nat) (state : Int) (w : World), i + n ≤ PINS →
      (∀ k, k < n → w.switches k (aSwitches.getD (i + k) 0) ≠ LOW) →
      ∃ out, ButtonListener.forLoop aSwitches aLEDs aTones speakerPin n i state w =
          .ok (state, w.skip n 0 0, out) ∧
        commands out = (List.range' i n).map (fun c => Event.digitalWrite (aLEDs.getD c 0) LOW) := by
  intro n
  induction n with
  | zero =>
    intro i state w _ _
    exact ⟨[], by simp [ButtonListener.forLoop], rfl⟩
  | succ n ih =>
    intro i state w hi hq
    have h0 := hq 0 (by omega)
    rw [Nat.add_zero] at h0
    obtain ⟨out2, h2, hc2⟩ := ih (i + 1) state (w.skip 1 0 0) (by omega)
      (by
        intro k hk
        have := hq (k + 1) (by omega)
        rw [show i + (k + 1) = i + 1 + k by omega] at this
        simpa using this)
    rw [ButtonListener.forLoop, index_nat _ _ (by omega), index_nat _ _ (by omega),
      index_nat _ _ (by omega)]
    simp only [ok_bind, SyncIO_eq, if_neg h0]
    rw [if_neg (by decide), h2]
    refine ⟨_, by simp only [ok_bind, skip_skip]; rfl, ?_⟩
    rw [commands_append, hc2, List.range'_succ, List.map_cons]
    rfl

theorem whileLoop_quiet (pickTimeout : Int) (aSwitches aLEDs aTones : List Int)
    (speakerPin lngStartTime : Int)
    (hS : aSwitches.length = PINS) (hL : aLEDs.length = PINS) (hT : aTones.length = PINS) :
    ∀ (m : Nat) (w : World) (fuel : Nat), m + 1 ≤ fuel →
      (∀ p, p ≤ m → ∀ c, c < PINS → ¬ pressedIn aSwitches w p c) →
      (∀ p, p < m → ¬ toLong (toLong (toULong (w.clock p)) - lngStartTime) > pickTimeout) →
      toLong (toLong (toULong (w.clock m)) - lngStartTime) > pickTimeout →
      ∃ out, ButtonListener.whileLoop pickTimeout aSwitches aLEDs aTones speakerPin lngStartTime
            fuel (-1) w = .ok (-1, w.skip (PINS * (m + 1)) (m + 1) 0, out) ∧
        commands out = (List.replicate (m + 1)
          ((List.range' 0 PINS).map (fun c => Event.digitalWrite (aLEDs.getD c 0) LOW))).flatten := by
  intro m
  induction m with
  | zero =>
    intro w fuel hf hq _ hto
    obtain ⟨f, rfl⟩ : ∃ f, fuel = f + 1 := ⟨fuel - 1, by omega⟩
    obtain ⟨out1, h1, hc1⟩ := ButtonListener_forLoop_quiet aSwitches aLEDs aTones speakerPin
      hS hL hT PINS 0 (-1) w (by omega)
      (fun k hk hp => hq 0 (le_refl _) k hk (by simpa [pressedIn] using hp))
    unfold ButtonListener.whileLoop
    simp only [if_true, h1, ok_bind, millis, skip_clock, skip_skip]
    refine ⟨out1, by simp [hto], by simp [hc1]⟩
  | succ m ih =>
    intro w fuel hf hq hnot hto
    obtain ⟨f, rfl⟩ : ∃ f, fuel = f + 1 := ⟨fuel - 1, by omega⟩
    obtain ⟨out1, h1, hc1⟩ := ButtonListener_forLoop_quiet aSwitches aLEDs aTones speakerPin
      hS hL hT PINS 0 (-1) w (by omega)
      (fun k hk hp => hq 0 (by omega) k hk (by simpa [pressedIn] using hp))
    obtain ⟨out2, h2, hc2⟩ := ih (w.skip PINS 1 0) f (by omega)
      (by
        intro p hp c hc hpr
        apply hq (p + 1) (by omega) c hc
        simp only [pressedIn, skip_switches] at hpr ⊢
        rwa [show PINS * (p + 1) + c = PINS * p + c + PINS by ring])
      (by
        intro p hp
        simpa using hnot (p + 1) (by omega))
      (by simpa using hto)
    have hto0 := hnot 0 (by omega)
    unfold ButtonListener.whileLoop
    simp only [if_true, h1, ok_bind, millis, skip_clock, skip_skip]
    rw [if_neg (by simpa using hto0)]
    simp only [Nat.add_zero, Nat.zero_add] at h2 ⊢
    rw [h2]
    refine ⟨out1 ++ out2, ?_, ?_⟩
    · simp only [ok_bind, skip_skip]
      rw [show PINS * (m + 1) + PINS = PINS * (m + 1 + 1) by ring]
    · rw [commands_append, hc1, hc2, List.replicate_succ (n := m + 1), List.flatten_cons]

theorem ButtonListener_timeout (pickTimeout : Int) (aSwitches aLEDs aTones : List Int)
    (speakerPin : Int)
    (hS : aSwitches.length = PINS) (hL : aLEDs.length = PINS) (hT : aTones.length = PINS)
    (w : World) (n fuel : Nat) (hf : n + 1 ≤ fuel)
    (hquiet : ∀ p, p ≤ n → ∀ c, c < PINS → ¬ pressedIn aSwitches w p c)
    (hto : elapsed (w.clock 0) (w.clock (n + 1)) > pickTimeout) :
    ∃ m out, m ≤ n ∧
      ButtonListener fuel pickTimeout aSwitches aLEDs aTones speakerPin w =
        .ok (-1, w.skip (PINS * (m + 1)) (m + 2) 0, out) ∧
      ListenLog out [pickTimeout, speakerPin] (-1) ∧
      commands out = (List.replicate (m + 1)
        [Event.digitalWrite (aLEDs.getD 0 0) LOW, Event.digitalWrite (aLEDs.getD 1 0) LOW,
         Event.digitalWrite (aLEDs.getD 2 0) LOW]).flatten := by
  classical
  have hex : ∃ m, elapsed (w.clock 0) (w.clock (m + 1)) > pickTimeout := ⟨n, hto⟩
  have hle : Nat.find hex ≤ n := Nat.find_min' hex hto
  obtain ⟨outW, hW, hcW⟩ := whileLoop_quiet pickTimeout aSwitches aLEDs aTones speakerPin
    (toLong (toULong (w.clock 0))) hS hL hT (Nat.find hex) (w.skip 0 1 0) fuel (by omega)
    (fun p hp c hc hpr => hquiet p (by omega) c hc (by simpa [pressedIn] using hpr))
    (fun p hp => by simpa [elapsed] using Nat.find_min hex hp)
    (by simpa [elapsed] using Nat.find_spec hex)
  have h : ButtonListener fuel pickTimeout aSwitches aLEDs aTones speakerPin w =
      .ok (-1, w.skip (PINS * (Nat.find hex + 1)) (Nat.find hex + 2) 0,
        .enter .ButtonListener [pickTimeout, speakerPin] :: (outW ++ [.ret .ButtonListener (-1)])) := by
    unfold ButtonListener
    simp only [millis, ok_bind]
    rw [hW]
    simp only [ok_bind, skip_skip]
    rfl
  obtain ⟨-, -, hlog⟩ := ButtonListener_inv pickTimeout aSwitches aLEDs aTones speakerPin
    hS hL hT fuel w _ _ _ h
  refine ⟨Nat.find hex, _, hle, h, hlog, ?_⟩
  show commands (outW ++ [.ret .ButtonListener (-1)]) = _
  rw [commands_append, hcW]
  simp only [commands, List.append_nil]
  rfl

theorem filter_valid_entries (es : List Int) (k : Nat) (hvalid : ∀ e ∈ es, 0 ≤ e ∧ e < PINS) :
    (es ++ List.replicate k (-1)).filter (fun e => decide (e ≠ -1)) = es := by
  rw [List.filter_append]
  have h1 : es.filter (fun e => decide (e ≠ -1)) = es := by
    apply List.filter_eq_self.2
    intro e he
    have := hvalid e he
    simp only [decide_eq_true_eq]
    omega
  have h2 : (List.replicate k (-1 : Int)).filter (fun e => decide (e ≠ -1)) = [] := by
    apply List.filter_eq_nil_iff.2
    intro e he
    simp [List.eq_of_mem_replicate he]
  rw [h1, h2, List.append_nil]

theorem PlayerInput_ok (fuel : Nat) (RoundPick : List Int) (pickTimeout : Int)
    (aLEDs aSwitches aTones : List Int) (speakerPin duration : Int)
    (hS : aSwitches.length = PINS) (hL : aLEDs.length = PINS) (hT : aTones.length = PINS)
    (hR : RoundPick.length = ROUNDS)
    (hE : ∀ e ∈ RoundPick, e = -1 ∨ (0 ≤ e ∧ e < PINS))
    (w : World) (hresp : Responsive fuel pickTimeout aSwitches aLEDs aTones speakerPin w) :
    ∃ r w' out,
      PlayerInput fuel RoundPick pickTimeout aLEDs aSwitches aTones speakerPin duration w =
        .ok (r, w', out) ∧
      (∃ a b, w' = w.skip a b 0) ∧
      Verdict aLEDs aTones speakerPin duration (RoundPick.filter (fun e => decide (e ≠ -1))) r out ∧
      calls .WrongPick out = (if r = -1 then [[]] else []) ∧
      calls .PlayerInput out = [pickTimeout :: speakerPin :: duration :: RoundPick] ∧
      rets .PlayerInput out = [r] ∧
      (∀ f, f ≠ .PlayerInput → f ≠ .WrongPick → f ≠ .ButtonListener → f ≠ Fn.SyncIO →
        f ≠ .ToneOut → f ≠ .DisplayPick → f ≠ .BlinkPin → Silent f out) := by
  obtain ⟨r, w', out1, h, hw, hv, hs⟩ := PlayerInput_forLoop_ok fuel RoundPick pickTimeout aLEDs
    aSwitches aTones speakerPin duration hS hL hT hE ROUNDS 0 w (by omega) hresp
  rw [List.drop_zero] at hv
  have hsil : ∀ f, f ≠ .WrongPick → f ≠ .ToneOut →
      Silent f (if r = -1 then WrongPick w'.mem else []) := by
    intro f f1 f2
    split
    · exact silent_WrongPick f f1 f2 _
    · exact silent_nil f
  have hwp : calls .WrongPick (if r = -1 then WrongPick w'.mem else []) =
      (if r = -1 then [[]] else []) := by
    split
    · exact calls_WrongPick _
    · rfl
  have key : ∀ f, f ≠ .PlayerInput → f ≠ .WrongPick → f ≠ .ToneOut →
      calls f (.enter .PlayerInput (pickTimeout :: speakerPin :: duration :: RoundPick)
        :: (out1 ++ (if r = -1 then WrongPick w'.mem else []) ++ [.ret .PlayerInput r])) = calls f out1 ∧
      rets f (.enter .PlayerInput (pickTimeout :: speakerPin :: duration :: RoundPick)
        :: (out1 ++ (if r = -1 then WrongPick w'.mem else []) ++ [.ret .PlayerInput r])) = rets f out1 := by
    intro f f1 f2 f3
    have := hsil f f2 f3
    constructor
    · simp [calls, calls_append, this.1, Ne.symm f1]
    · simp [rets, rets_append, this.2, Ne.symm f1]
  have hPI := hs .PlayerInput (by decide) (by decide) (by decide) (by decide) (by decide)
  have hWP := hs .WrongPick (by decide) (by decide) (by decide) (by decide) (by decide)
  have hsilPI := hsil .PlayerInput (by decide) (by decide)
  refine ⟨r, w', _, by rw [PlayerInput, h]; rfl, hw, ?_, ?_, ?_, ?_, ?_⟩
  · have k1 := key .ButtonListener (by decide) (by decide) (by decide)
    have k2 := key .DisplayPick (by decide) (by decide) (by decide)
    unfold Verdict at hv ⊢
    rw [k1.1, k1.2, k2.1]
    exact hv
  · simp [calls, calls_append, hWP.1, hwp]
  · simp [calls, calls_append, hPI.1, hsilPI.1]
  · simp [rets, rets_append, hPI.2, hsilPI.2]
  · intro f f1 f2 f3 f4 f5 f6 f7
    have k := key f f1 f2 f5
    have := hs f f3 f4 f5 f6 f7
    exact ⟨by rw [k.1, this.1], by rw [k.2, this.2]⟩

theorem scriptedWorld_responsive (mem : Globals) (script rolls : List Int)
    (aLEDs aTones : List Int) (speakerPin : Int)
    (hL : aLEDs.length = PINS) (hT : aTones.length = PINS) :
    Responsive 1 6000 [6, 7, 8] aLEDs aTones speakerPin (scriptedWorld mem script rolls) := by
  intro a b c
  obtain ⟨out, h, -⟩ := ButtonListener_returns 6000 [6, 7, 8] aLEDs aTones speakerPin rfl hL hT
    ((scriptedWorld mem script rolls).skip a b c) 0 1 (by omega)
    (fun p hp => absurd hp (by omega))
    (Or.inr (by
      simp only [skip_clock, scriptedWorld, elapsed, toLong, toULong]
      push_cast
      omega))
  exact ⟨_, h⟩

set_option maxRecDepth 100000 in
/-- The run of the specification's example: expected `[0, 1]`, presses 0 then 1.
`PlayerInput` returns PASS, both picks are confirmed, `WrongPick` is not called. -/
theorem PlayerInput_pass_run :
    (PlayerInput 1 [0, 1, -1] 6000 [2, 3, 4] [6, 7, 8] [277, 349, 415] 10 1500
        (scriptedWorld (sketchGlobals 277 349 415) [0, 1] [])).toOption.map
      (fun x => (x.1, rets .ButtonListener x.2.2, calls .DisplayPick x.2.2, calls .WrongPick x.2.2)) =
      some (0, [0, 1], [[2, 277, 10, 1500], [3, 349, 10, 1500]], []) := by
  decide

set_option maxRecDepth 100000 in
/-- The run of the specification's example: expected `[0, 1]`, presses 0 then 0.
`PlayerInput` returns FAIL at the second entry: `ButtonListener` was called twice,
only the first pick is confirmed, `WrongPick` is called once. -/
theorem PlayerInput_fail_run :
    (PlayerInput 1 [0, 1, -1] 6000 [2, 3, 4] [6, 7, 8] [277, 349, 415] 10 1500
        (scriptedWorld (sketchGlobals 277 349 415) [0, 0] [])).toOption.map
      (fun x => (x.1, rets .ButtonListener x.2.2, calls .DisplayPick x.2.2, calls .WrongPick x.2.2)) =
      some (-1, [0, 0], [[2, 277, 10, 1500]], [[]]) := by
  decide

/-- C4 (as the code has it): for a pick array with a valid first entry and any timeout
value, if no channel reads pressed in the poll passes `0..n`, and the clock read
after pass `n` is more than `pickTimeout` but less than `2^31` ms past the start
reading, then `ButtonListener` returns the sentinel `-1` (which is no channel
index) after some `m + 1 ≤ n + 1` passes, and `PlayerInput` returns FAIL (-1) after
that single capture.  No `DisplayPick` is called, `WrongPick` is called once, and
the hardware sees nothing but the three LEDs switched off in each pass followed by
the alarm: 200 times a 50 ms tone of 200 Hz and one of 203 Hz on the global
`speakerPin`. -/
theorem PlayerInput_timeout (fuel : Nat) (pickTimeout : Int)
    (aLEDs aSwitches aTones : List Int) (speakerPin duration : Int)
    (hS : aSwitches.length = PINS) (hL : aLEDs.length = PINS) (hT : aTones.length = PINS)
    (RoundPick : List Int) (hR : RoundPick.length = ROUNDS) (h0 : -1 < RoundPick.getD 0 0)
    (w : World) (n : Nat) (hf : n + 1 ≤ fuel)
    (hquiet : ∀ p, p ≤ n → ∀ c, c < PINS → ¬ pressedIn aSwitches w p c)
    (hto : w.clock (n + 1) - w.clock 0 > pickTimeout)
    (hfit : w.clock (n + 1) - w.clock 0 < 2147483648) :
    (∀ c : Nat, c < PINS → (-1 : Int) ≠ (c : Int)) ∧
    ∃ m out1 out, m ≤ n ∧
      ButtonListener fuel pickTimeout aSwitches aLEDs aTones speakerPin w =
        .ok (-1, w.skip (PINS * (m + 1)) (m + 2) 0, out1) ∧
      PlayerInput fuel RoundPick pickTimeout aLEDs aSwitches aTones speakerPin duration w =
        .ok (-1, w.skip (PINS * (m + 1)) (m + 2) 0, out) ∧
      rets .ButtonListener out = [-1] ∧ calls .DisplayPick out = [] ∧
      calls .WrongPick out = [[]] ∧
      commands out =
        (List.replicate (m + 1)
          [Event.digitalWrite (aLEDs.getD 0 0) LOW, Event.digitalWrite (aLEDs.getD 1 0) LOW,
           Event.digitalWrite (aLEDs.getD 2 0) LOW]).flatten ++
        (List.replicate 200
          [Event.noTone w.mem.speakerPin, Event.tone w.mem.speakerPin 200 50,
           Event.noTone w.mem.speakerPin, Event.tone w.mem.speakerPin 203 50]).flatten := by
  obtain ⟨m, out1, hm, hbl, hlog, hcmd⟩ := ButtonListener_timeout pickTimeout aSwitches aLEDs aTones
    speakerPin hS hL hT w n fuel hf hquiet (elapsed_gt _ _ _ hto hfit)
  refine ⟨fun c _ => by omega, m, out1,
    .enter .PlayerInput (pickTimeout :: speakerPin :: duration :: RoundPick)
      :: (out1 ++ WrongPick w.mem ++ [.ret .PlayerInput (-1)]), hm, hbl, ?_⟩
  have hloop : PlayerInput.forLoop fuel RoundPick pickTimeout aLEDs aSwitches aTones speakerPin
      duration ROUNDS 0 w = .ok (-1, w.skip (PINS * (m + 1)) (m + 2) 0, out1) := by
    show PlayerInput.forLoop fuel RoundPick pickTimeout aLEDs aSwitches aTones speakerPin
      duration (2 + 1) 0 w = _
    rw [PlayerInput.forLoop]
    have hi := index_nat RoundPick 0 (by rw [hR]; decide)
    simp only [Nat.cast_zero] at hi
    rw [show ((0 : Nat) : Int) = 0 from rfl, hi, ok_bind, if_pos (by omega), hbl, ok_bind]
    dsimp only
    rw [if_neg (by omega)]
  have hs1 := silent_WrongPick .ButtonListener (by decide) (by decide) w.mem
  have hs2 := silent_WrongPick .DisplayPick (by decide) (by decide) w.mem
  have hs3 := calls_WrongPick w.mem
  have hs4 := commands_WrongPick w.mem
  have hrun : PlayerInput fuel RoundPick pickTimeout aLEDs aSwitches aTones speakerPin duration w =
      .ok (-1, w.skip (PINS * (m + 1)) (m + 2) 0,
        .enter .PlayerInput (pickTimeout :: speakerPin :: duration :: RoundPick)
          :: (out1 ++ WrongPick w.mem ++ [.ret .PlayerInput (-1)])) := by
    rw [PlayerInput, hloop]; rfl
  refine ⟨hrun, ?_, ?_, ?_, ?_⟩
  · generalize WrongPick w.mem = l at hs1
    simp [rets, rets_append, hlog.returned, hs1.2]
  · generalize WrongPick w.mem = l at hs2
    simp [calls, calls_append, hlog.others .DisplayPick (by decide) (by decide) (by decide), hs2.1]
  · generalize WrongPick w.mem = l at hs3
    simp [calls, calls_append, hlog.others .WrongPick (by decide) (by decide) (by decide), hs3]
  · generalize WrongPick w.mem = l at hs4
    show commands (out1 ++ l ++ [.ret .PlayerInput (-1)]) = _
    rw [commands_append, commands_append, hcmd, hs4]
    simp only [commands, List.append_nil]

theorem PlayerInput_timeout_witness :
    (∀ c : Nat, c < PINS → (-1 : Int) ≠ (c : Int)) ∧
    ∃ m out1 out, m ≤ 6 ∧
      ButtonListener 7 6000 [6, 7, 8] [2, 3, 4] [277, 349, 415] 10
          (tickingWorld (sketchGlobals 277 349 415)) =
        .ok (-1, (tickingWorld (sketchGlobals 277 349 415)).skip (PINS * (m + 1)) (m + 2) 0, out1) ∧
      PlayerInput 7 [2, -1, -1] 6000 [2, 3, 4] [6, 7, 8] [277, 349, 415] 10 1500
          (tickingWorld (sketchGlobals 277 349 415)) =
        .ok (-1, (tickingWorld (sketchGlobals 277 349 415)).skip (PINS * (m + 1)) (m + 2) 0, out) ∧
      rets .ButtonListener out = [-1] ∧ calls .DisplayPick out = [] ∧
      calls .WrongPick out = [[]] ∧
      commands out =
        (List.replicate (m + 1)
          [Event.digitalWrite 2 LOW, Event.digitalWrite 3 LOW, Event.digitalWrite 4 LOW]).flatten ++
        (List.replicate 200
          [Event.noTone 10, Event.tone 10 200 50, Event.noTone 10, Event.tone 10 203 50]).flatten :=
  PlayerInput_timeout 7 6000 [2, 3, 4] [6, 7, 8] [277, 349, 415] 10 1500 rfl rfl rfl
    [2, -1, -1] rfl (by decide) (tickingWorld (sketchGlobals 277 349 415)) 6 (by omega)
    (fun p _ c _ => by simp [pressedIn, tickingWorld, quietWorld])
    (by decide) (by decide)

/-- C4 (counterexample): in `stalledWorld` no channel ever reads pressed and the clock
read after the first poll pass is `2^31 + 5` ms past the start, which exceeds
`pickTimeout = 6000`.  Yet with no amount of fuel does `ButtonListener` return `-1`
or `PlayerInput` return FAIL: the capture never ends and no alarm plays. -/
theorem PlayerInput_timeout_counterexample :
    (∀ p c, ¬ pressedIn [6, 7, 8] (stalledWorld (sketchGlobals 277 349 415)) p c) ∧
    (stalledWorld (sketchGlobals 277 349 415)).clock 1 -
      (stalledWorld (sketchGlobals 277 349 415)).clock 0 > 6000 ∧
    ∀ fuel,
      ButtonListener fuel 6000 [6, 7, 8] [2, 3, 4] [277, 349, 415] 10
        (stalledWorld (sketchGlobals 277 349 415)) = .error .outOfFuel ∧
      PlayerInput fuel [2, -1, -1] 6000 [2, 3, 4] [6, 7, 8] [277, 349, 415] 10 1500
        (stalledWorld (sketchGlobals 277 349 415)) = .error .outOfFuel := by
  have hq : ∀ p c, ¬ pressedIn [6, 7, 8] (stalledWorld (sketchGlobals 277 349 415)) p c := by
    intro p c
    simp [pressedIn, stalledWorld, quietWorld]
  have hbl : ∀ fuel, ButtonListener fuel 6000 [6, 7, 8] [2, 3, 4] [277, 349, 415] 10
      (stalledWorld (sketchGlobals 277 349 415)) = .error .outOfFuel := by
    intro fuel
    apply ButtonListener_spins 6000 [6, 7, 8] [2, 3, 4] [277, 349, 415] 10 rfl rfl rfl
    intro p
    refine ⟨fun c _ => hq p c, ?_⟩
    simp [stalledWorld, quietWorld, elapsed, toLong, toULong]
  refine ⟨hq, by decide, fun fuel => ⟨hbl fuel, ?_⟩⟩
  unfold PlayerInput
  show (PlayerInput.forLoop fuel [2, -1, -1] 6000 [2, 3, 4] [6, 7, 8] [277, 349, 415] 10 1500
    (2 + 1) 0 (stalledWorld (sketchGlobals 277 349 415)) >>= _) = _
  rw [PlayerInput.forLoop]
  simp only [index, hbl fuel]
  rfl

/-! ## The round loop of `PlaySimon` -/

theorem silent_flatMap {α : Type} (f : Fn) (l : List α) (g : α → List Event)
    (h : ∀ e, Silent f (g e)) : Silent f (l.flatMap g) := by
  induction l with
  | nil => exact silent_nil f
  | cons e l ih =>
    rw [List.flatMap_cons]
    exact silent_append (h e) ih

theorem DisplayAllPicks_ok (aLEDs aTones RoundPick : List Int) (speakerPin duration : Int)
    (hL : aLEDs.length = PINS) (hT : aTones.length = PINS) (hR : RoundPick.length = ROUNDS)
    (hE : ∀ e ∈ RoundPick, e = -1 ∨ (0 ≤ e ∧ e < PINS)) :
    ∃ out, DisplayAllPicks aLEDs aTones RoundPick speakerPin duration = .ok out ∧
      calls .DisplayAllPicks out = [speakerPin :: duration :: RoundPick] ∧
      (∀ f, f ≠ .DisplayAllPicks → f ≠ .DisplayPick → f ≠ .ToneOut → f ≠ .BlinkPin →
        Silent f out) := by
  have h := DisplayAllPicks_forLoop_ok aLEDs aTones RoundPick speakerPin duration hL hT hE
    ROUNDS 0 (by omega)
  have hs : ∀ f, f ≠ .DisplayPick → f ≠ .ToneOut → f ≠ .BlinkPin →
      Silent f (((RoundPick.drop 0).filter (fun e => decide (e ≠ -1))).flatMap
        (fun e => DisplayPick (aLEDs.getD e.toNat 0) (aTones.getD e.toNat 0) speakerPin duration)) :=
    fun f f1 f2 f3 => silent_flatMap f _ _ (fun e => silent_DisplayPick f f1 f2 f3 _ _ _ _)
  refine ⟨_, by rw [DisplayAllPicks, h]; rfl, ?_, ?_⟩
  · have := hs .DisplayAllPicks (by decide) (by decide) (by decide)
    simp only [calls, if_true, this.1]
  · intro f f1 f2 f3 f4
    have := hs f f2 f3 f4
    exact ⟨by simp only [calls, if_neg (Ne.symm f1), this.1], by simp only [rets, this.2]⟩

theorem fairDice_later {w : World} (h : FairDice w) (a b c : Nat) : FairDice (w.skip a b c) :=
  fun k => h (k + c)

theorem NewPick_eq (w : World) (h : FairDice w) :
    NewPick 0 PINS w = (w.dice 1 0 PINS, w.skip 0 0 2,
      [.enter .NewPick [0, PINS], .randomSeed (toLong (w.dice 0 1 2048)),
       .ret .NewPick (w.dice 1 0 PINS)]) := by
  have h1 := h 1
  have hp : toInt16 (toLong (w.dice 1 0 PINS)) = w.dice 1 0 PINS := by
    unfold toInt16 toLong
    simp only [PINS, Nat.cast_ofNat] at h1 ⊢
    omega
  simp only [NewPick, random, skip_dice, skip_skip, Nat.zero_add, hp]

theorem store_ok (arr : List Int) (i : Nat) (v : Int) (h : i < arr.length) :
    store arr (i : Int) v = .ok (arr.set i v) := by
  simp [store, h]

theorem valid_set (RoundPick : List Int) (i : Nat) (v : Int)
    (hE : ∀ e ∈ RoundPick, e = -1 ∨ (0 ≤ e ∧ e < PINS)) (hv : 0 ≤ v ∧ v < PINS) :
    ∀ e ∈ RoundPick.set i v, e = -1 ∨ (0 ≤ e ∧ e < PINS) := by
  intro e he
  rcases List.mem_or_eq_of_mem_set he with h | h
  · exact hE e h
  · exact Or.inr (h ▸ hv)

theorem PlaySimon_forLoop_ok (fuel : Nat) (aLEDs aSwitches aTones : List Int)
    (duration speakerPin pickTimeout : Int)
    (hS : aSwitches.length = PINS) (hL : aLEDs.length = PINS) (hT : aTones.length = PINS) :
    ∀ (n i : Nat) (RoundPick : List Int) (recVal : Int) (w : World), i + n = ROUNDS →
      RoundPick.length = ROUNDS →
      (∀ e ∈ RoundPick, e = -1 ∨ (0 ≤ e ∧ e < PINS)) →
      FairDice w → Responsive fuel pickTimeout aSwitches aLEDs aTones speakerPin w →
      ∃ q r w' out,
        PlaySimon.forLoop fuel aLEDs aSwitches aTones duration speakerPin pickTimeout
          n i RoundPick recVal w = .ok ((r, fill w.dice RoundPick i q), w', out) ∧
        q ≤ n ∧ (∃ a b, w' = w.skip a b (2 * q)) ∧
        ((q = n ∧ r = (if n = 0 then recVal else 0) ∧
            RoundsLog pickTimeout speakerPin duration
              ((List.range q).map (fun t => fill w.dice RoundPick i (t + 1)))
              (List.replicate q 0) out) ∨
          (1 ≤ q ∧ r = -1 ∧
            RoundsLog pickTimeout speakerPin duration
              ((List.range q).map (fun t => fill w.dice RoundPick i (t + 1)))
              (List.replicate (q - 1) 0 ++ [-1]) out)) := by
  intro n
  induction n with
  | zero =>
    intro i RoundPick recVal w _ _ _ _ _
    refine ⟨0, recVal, w, [], by simp [PlaySimon.forLoop, fill], le_refl _, ⟨0, 0, by simp⟩, ?_⟩
    exact Or.inl ⟨rfl, by simp, ⟨rfl, rfl, rfl, rfl, rfl⟩⟩
  | succ n ih =>
    intro i RoundPick recVal w hi hR hE hfair hresp
    have hpick := hfair 1
    have hR1 : (RoundPick.set i (w.dice 1 0 PINS)).length = ROUNDS := by
      rw [List.length_set]; exact hR
    have hE1 := valid_set RoundPick i (w.dice 1 0 PINS) hE hpick
    obtain ⟨out2, hdisp, hcd, hsd⟩ := DisplayAllPicks_ok aLEDs aTones
      (RoundPick.set i (w.dice 1 0 PINS)) speakerPin duration hL hT hR1 hE1
    obtain ⟨r1, w3, out3, hpi, ⟨a3, b3, hw3⟩, hv, -, hcp, hrp, hsp⟩ := PlayerInput_ok fuel
      (RoundPick.set i (w.dice 1 0 PINS)) pickTimeout aLEDs aSwitches aTones speakerPin duration
      hS hL hT hR1 hE1 (w.skip 0 0 2) (responsive_later hresp 0 0 2)
    have hr1 : r1 = 0 ∨ r1 = -1 := by
      rcases hv with ⟨h, _⟩ | ⟨h, _⟩
      · exact Or.inl h
      · exact Or.inr h
    rw [skip_skip] at hw3
    -- the log of one round
    have hround : RoundsLog pickTimeout speakerPin duration [RoundPick.set i (w.dice 1 0 PINS)] [r1]
        ([.enter .NewPick [0, PINS], .randomSeed (toLong (w.dice 0 1 2048)),
          .ret .NewPick (w.dice 1 0 PINS)] ++ out2 ++ out3) := by
      have d1 := hsd .NewPick (by decide) (by decide) (by decide) (by decide)
      have d2 := hsd .PlayerInput (by decide) (by decide) (by decide) (by decide)
      have d3 := hsd .DispenseReward (by decide) (by decide) (by decide) (by decide)
      have p1 := hsp .NewPick (by decide) (by decide) (by decide) (by decide) (by decide)
        (by decide) (by decide)
      have p2 := hsp .DisplayAllPicks (by decide) (by decide) (by decide) (by decide) (by decide)
        (by decide) (by decide)
      have p3 := hsp .DispenseReward (by decide) (by decide) (by decide) (by decide) (by decide)
        (by decide) (by decide)
      refine ⟨?_, ?_, ?_, ?_, ?_⟩
      · simp [calls, calls_append, d1.1, p1.1]
      · simp [calls, calls_append, hcd, p2.1]
      · simp [calls, calls_append, d2.1, hcp]
      · simp [rets, rets_append, d2.2, hrp]
      · simp [calls, calls_append, d3.1, p3.1]
    rw [PlaySimon.forLoop, NewPick_eq w hfair]
    dsimp only
    rw [store_ok _ _ _ (by omega), ok_bind, hdisp, ok_bind, hpi, ok_bind]
    dsimp only
    rcases hr1 with h0 | hm1
    · subst h0
      obtain ⟨q, r, w', out4, hrec, hq, ⟨a4, b4, hw4⟩, hlog⟩ := ih (i + 1)
        (RoundPick.set i (w.dice 1 0 PINS)) 0 w3 (by omega) hR1 hE1
        (by rw [hw3]; exact fairDice_later hfair _ _ _) (by rw [hw3]; exact responsive_later hresp _ _ _)
      have hdice : w3.dice = fun k => w.dice (k + 2) := by rw [hw3]; rfl
      rw [hdice] at hrec hlog
      rw [if_neg (by decide), hrec]
      refine ⟨q + 1, r, w', _, rfl, by omega, ⟨_, _, by rw [hw4, hw3, skip_skip]; congr 1⟩, ?_⟩
      have hmap : (List.range (q + 1)).map (fun t => fill w.dice RoundPick i (t + 1)) =
          RoundPick.set i (w.dice 1 0 PINS) ::
            (List.range q).map (fun t => fill (fun k => w.dice (k + 2))
              (RoundPick.set i (w.dice 1 0 PINS)) (i + 1) (t + 1)) := by
        rw [List.range_succ_eq_map, List.map_cons, List.map_map]
        rfl
      have happ : ∀ (arrs : List (List Int)) (outs : List Int),
          RoundsLog pickTimeout speakerPin duration arrs outs out4 →
          RoundsLog pickTimeout speakerPin duration
            (RoundPick.set i (w.dice 1 0 PINS) :: arrs) (0 :: outs)
            ([.enter .NewPick [0, PINS], .randomSeed (toLong (w.dice 0 1 2048)),
              .ret .NewPick (w.dice 1 0 PINS)] ++ out2 ++ out3 ++ .delay 3000 :: out4) := by
        intro arrs outs hl
        have e : ∀ (x : List Event), x ++ Event.delay 3000 :: out4 = x ++ ([Event.delay 3000] ++ out4) :=
          fun x => rfl
        refine ⟨?_, ?_, ?_, ?_, ?_⟩
        · rw [e, calls_append, hround.newPick, calls_append, hl.newPick]; rfl
        · rw [e, calls_append, hround.display, calls_append, hl.display]; rfl
        · rw [e, calls_append, hround.verify, calls_append, hl.verify]; rfl
        · rw [e, rets_append, hround.outcomes, rets_append, hl.outcomes]; rfl
        · rw [e, calls_append, hround.noReward, calls_append, hl.noReward]; rfl
      rcases hlog with ⟨hqn, hr, hl⟩ | ⟨hq1, hr, hl⟩
      · left
        refine ⟨by omega, ?_, ?_⟩
        · rw [hr]; split <;> simp
        · rw [hmap, List.replicate_succ]
          exact happ _ _ hl
      · right
        refine ⟨by omega, hr, ?_⟩
        rw [hmap, show q + 1 - 1 = (q - 1) + 1 by omega, List.replicate_succ, List.cons_append]
        exact happ _ _ hl
    · subst hm1
      rw [if_pos rfl]
      refine ⟨1, -1, w3, _, rfl, by omega, ⟨_, _, hw3⟩, Or.inr ⟨le_refl _, rfl, ?_⟩⟩
      simpa [fill] using hround

/-! ## `PlaySimon` as a whole -/

theorem initLoop_ok : ∀ (n i : Nat) (RoundPick : List Int), i + n = RoundPick.length →
    PlaySimon.initLoop n i RoundPick = .ok (RoundPick.take i ++ List.replicate n (-1)) := by
  intro n
  induction n with
  | zero =>
    intro i RoundPick h
    simp [PlaySimon.initLoop, List.take_of_length_le (show RoundPick.length ≤ i by omega)]
  | succ n ih =>
    intro i RoundPick h
    rw [PlaySimon.initLoop, store_ok _ _ _ (by omega), ok_bind,
      ih (i + 1) _ (by rw [List.length_set]; omega)]
    congr 1
    have hi : i < RoundPick.length := by omega
    rw [List.replicate_succ, List.take_succ, List.set_take]
    simp [List.getElem?_set, hi]
    exact List.set_eq_of_length_le (by simp)

theorem initLoop_start (stack : Nat → Int) :
    PlaySimon.initLoop ROUNDS 0 ((List.range ROUNDS).map stack) =
      .ok (List.replicate ROUNDS (-1)) := by
  rw [initLoop_ok ROUNDS 0 _ (by simp)]
  rfl

theorem fill_from : ∀ (q : Nat) (dice : Nat → Int → Int → Int) (pre : List Int) (R : Nat),
    pre.length + q ≤ R →
    fill dice (pre ++ List.replicate (R - pre.length) (-1)) pre.length q =
      pre ++ (List.range q).map (fun s => dice (2 * s + 1) 0 PINS) ++
        List.replicate (R - pre.length - q) (-1) := by
  intro q
  induction q with
  | zero => intro dice pre R _; simp [fill]
  | succ q ih =>
    intro dice pre R h
    have hset : (pre ++ List.replicate (R - pre.length) (-1)).set pre.length (dice 1 0 PINS) =
        (pre ++ [dice 1 0 PINS]) ++ List.replicate (R - (pre ++ [dice 1 0 PINS]).length) (-1) := by
      rw [List.set_append_right _ _ (le_refl _), Nat.sub_self,
        show R - pre.length = (R - (pre.length + 1)) + 1 by omega, List.replicate_succ]
      simp
    have hlen : (pre ++ [dice 1 0 PINS]).length = pre.length + 1 := by simp
    rw [fill, hset, ← hlen, ih _ _ R (by rw [hlen]; omega), hlen, List.range_succ_eq_map,
      List.map_cons, List.map_map]
    simp only [List.append_assoc, List.singleton_append, Nat.mul_zero, Nat.zero_add]
    congr 3
    omega

theorem fill_start (w : World) (t : Nat) (h : t + 1 ≤ ROUNDS) :
    fill w.dice (List.replicate ROUNDS (-1)) 0 (t + 1) = snapshot w t := by
  have := fill_from (t + 1) w.dice [] ROUNDS (by simpa using h)
  simpa [snapshot] using this

theorem PlaySimon_ok (fuel : Nat) (aLEDs aSwitches aTones : List Int)
    (duration speakerPin pickTimeout : Int)
    (hS : aSwitches.length = PINS) (hL : aLEDs.length = PINS) (hT : aTones.length = PINS)
    (w : World) (hfair : FairDice w)
    (hresp : Responsive fuel pickTimeout aSwitches aLEDs aTones speakerPin w) :
    ∃ q r w' out,
      PlaySimon fuel aLEDs aSwitches aTones duration speakerPin pickTimeout w = .ok ((), w', out) ∧
      1 ≤ q ∧ q ≤ ROUNDS ∧
      ((q = ROUNDS ∧ r = 0 ∧ rets .PlayerInput out = List.replicate q 0) ∨
        (r = -1 ∧ rets .PlayerInput out = List.replicate (q - 1) 0 ++ [-1])) ∧
      calls .DispenseReward out = (if r = 0 then [[]] else []) ∧
      calls .NewPick out = (List.range q).map (fun _ => [0, (PINS : Int)]) ∧
      calls .DisplayAllPicks out =
        (List.range q).map (fun t => speakerPin :: duration :: snapshot w t) ∧
      calls .PlayerInput out =
        (List.range q).map (fun t => pickTimeout :: speakerPin :: duration :: snapshot w t) := by
  obtain ⟨q, r, w1, out1, hloop, hq, -, hlog⟩ := PlaySimon_forLoop_ok fuel aLEDs aSwitches aTones
    duration speakerPin pickTimeout hS hL hT ROUNDS 0 (List.replicate ROUNDS (-1)) 0 w
    (by omega) (by simp) (fun e he => Or.inl (List.eq_of_mem_replicate he)) hfair hresp
  have hq1 : 1 ≤ q := by
    rcases hlog with ⟨h, _⟩ | ⟨h, _⟩
    · rw [h]; decide
    · exact h
  have harr : (List.range q).map (fun t => fill w.dice (List.replicate ROUNDS (-1)) 0 (t + 1)) =
      (List.range q).map (fun t => snapshot w t) := by
    apply List.map_congr_left
    intro t ht
    exact fill_start w t (by have := List.mem_range.1 ht; omega)
  rw [harr] at hlog
  have hsD : ∀ f, f ≠ .DispenseReward → f ≠ .MotorControl →
      Silent f (if r = 0 then DispenseReward else []) := by
    intro f f1 f2
    split
    · exact silent_DispenseReward f f1 f2
    · exact silent_nil f
  have hcD : calls .DispenseReward (if r = 0 then DispenseReward else []) =
      (if r = 0 then [[]] else []) := by
    split <;> rfl
  have key : ∀ f, f ≠ .PlaySimon → f ≠ .DispenseReward → f ≠ .MotorControl →
      calls f (.enter .PlaySimon [duration, speakerPin, pickTimeout]
        :: (out1 ++ (if r = 0 then DispenseReward else []))) = calls f out1 ∧
      rets f (.enter .PlaySimon [duration, speakerPin, pickTimeout]
        :: (out1 ++ (if r = 0 then DispenseReward else []))) = rets f out1 := by
    intro f f1 f2 f3
    have := hsD f f2 f3
    exact ⟨by simp [calls, calls_append, this.1, Ne.symm f1], by simp [rets, rets_append, this.2]⟩
  have k1 := key .PlayerInput (by decide) (by decide) (by decide)
  have k2 := key .NewPick (by decide) (by decide) (by decide)
  have k3 := key .DisplayAllPicks (by decide) (by decide) (by decide)
  have hL' : RoundsLog pickTimeout speakerPin duration ((List.range q).map (fun t => snapshot w t))
      (rets .PlayerInput out1) out1 := by
    rcases hlog with ⟨_, _, hl⟩ | ⟨_, _, hl⟩
    · exact ⟨hl.newPick, hl.display, hl.verify, rfl, hl.noReward⟩
    · exact ⟨hl.newPick, hl.display, hl.verify, rfl, hl.noReward⟩
  refine ⟨q, r, _, _, by rw [PlaySimon, initLoop_start, ok_bind, hloop]; rfl, hq1, hq, ?_, ?_, ?_, ?_, ?_⟩
  · rw [k1.2]
    rcases hlog with ⟨hqn, hr, hl⟩ | ⟨_, hr, hl⟩
    · exact Or.inl ⟨hqn, by simpa using hr, hl.outcomes⟩
    · exact Or.inr ⟨hr, hl.outcomes⟩
  · simp [calls, calls_append, hL'.noReward, hcD]
  · rw [k2.1, hL'.newPick, List.map_map]; rfl
  · rw [k3.1, hL'.display, List.map_map]; rfl
  · rw [k1.1, hL'.verify, List.map_map]; rfl

/-! ## What a run leaves untouched -/

theorem bind_ok_inv {α β : Type} {x : Except Fault α} {f : α → Except Fault β} {b : β}
    (h : (x >>= f) = .ok b) : ∃ a, x = .ok a ∧ f a = .ok b := by
  cases x with
  | error e => simp at h
  | ok a => exact ⟨a, rfl, h⟩

/-- A poll pass that returns leaves the world it started in, after more switch
readings: same globals, same stack, same clock and generator streams. -/
theorem ButtonListener_forLoop_later (aSwitches aLEDs aTones : List Int) (speakerPin : Int) :
    ∀ (n i : Nat) (state : Int) (w : World) (r : Int) (w' : World) (out : List Event),
      ButtonListener.forLoop aSwitches aLEDs aTones speakerPin n i state w = .ok (r, w', out) →
      ∃ a b, w' = w.skip a b 0 := by
  intro n
  induction n with
  | zero =>
    intro i state w r w' out h
    simp only [ButtonListener.forLoop, Except.ok.injEq, Prod.mk.injEq] at h
    exact ⟨0, 0, by rw [← h.2.1, skip_zero]⟩
  | succ n ih =>
    intro i state w r w' out h
    rw [ButtonListener.forLoop] at h
    obtain ⟨btnPin, -, h⟩ := bind_ok_inv h
    obtain ⟨ledPin, -, h⟩ := bind_ok_inv h
    obtain ⟨itone, -, h⟩ := bind_ok_inv h
    rw [SyncIO_eq] at h
    dsimp only at h
    obtain ⟨⟨r2, w2, out2⟩, h2, h⟩ := bind_ok_inv h
    simp only [Except.ok.injEq, Prod.mk.injEq] at h
    obtain ⟨a, b, hw⟩ := ih _ _ _ _ _ _ h2
    exact ⟨_, _, by rw [← h.2.1, hw, skip_skip]⟩

theorem ButtonListener_whileLoop_later (pickTimeout : Int) (aSwitches aLEDs aTones : List Int)
    (speakerPin lngStartTime : Int) :
    ∀ (fuel : Nat) (state : Int) (w : World) (r : Int) (w' : World) (out : List Event),
      ButtonListener.whileLoop pickTimeout aSwitches aLEDs aTones speakerPin lngStartTime
        fuel state w = .ok (r, w', out) →
      ∃ a b, w' = w.skip a b 0 := by
  intro fuel
  induction fuel with
  | zero =>
    intro state w r w' out h
    unfold ButtonListener.whileLoop at h
    split at h
    · simp at h
    · simp only [Except.ok.injEq, Prod.mk.injEq] at h
      exact ⟨0, 0, by rw [← h.2.1, skip_zero]⟩
  | succ f ih =>
    intro state w r w' out h
    unfold ButtonListener.whileLoop at h
    split at h
    · dsimp only at h
      obtain ⟨⟨r1, w1, out1⟩, h1, h⟩ := bind_ok_inv h
      obtain ⟨a1, b1, hw1⟩ := ButtonListener_forLoop_later _ _ _ _ _ _ _ _ _ _ _ h1
      simp only [millis] at h
      split at h
      · simp only [Except.ok.injEq, Prod.mk.injEq] at h
        exact ⟨_, _, by rw [← h.2.1, hw1, skip_skip]⟩
      · obtain ⟨⟨r3, w3, out3⟩, h3, h⟩ := bind_ok_inv h
        simp only [Except.ok.injEq, Prod.mk.injEq] at h
        obtain ⟨a3, b3, hw3⟩ := ih _ _ _ _ _ h3
        exact ⟨_, _, by rw [← h.2.1, hw3, hw1, skip_skip, skip_skip]⟩
    · simp only [Except.ok.injEq, Prod.mk.injEq] at h
      exact ⟨0, 0, by rw [← h.2.1, skip_zero]⟩

theorem ButtonListener_later (fuel : Nat) (pickTimeout : Int) (aSwitches aLEDs aTones : List Int)
    (speakerPin : Int) (w : World) (r : Int) (w' : World) (out : List Event)
    (h : ButtonListener fuel pickTimeout aSwitches aLEDs aTones speakerPin w = .ok (r, w', out)) :
    ∃ a b, w' = w.skip a b 0 := by
  unfold ButtonListener at h
  simp only [millis] at h
  obtain ⟨⟨r1, w1, out1⟩, h1, h⟩ := bind_ok_inv h
  simp only [Except.ok.injEq, Prod.mk.injEq] at h
  obtain ⟨a, b, hw⟩ := ButtonListener_whileLoop_later _ _ _ _ _ _ _ _ _ _ _ _ h1
  exact ⟨_, _, by rw [← h.2.1, hw, skip_skip]⟩

theorem PlayerInput_forLoop_later (fuel : Nat) (RoundPick : List Int) (pickTimeout : Int)
    (aLEDs aSwitches aTones : List Int) (speakerPin duration : Int) :
    ∀ (n j : Nat) (w : World) (r : Int) (w' : World) (out : List Event),
      PlayerInput.forLoop fuel RoundPick pickTimeout aLEDs aSwitches aTones speakerPin duration
        n j w = .ok (r, w', out) →
      ∃ a b, w' = w.skip a b 0 := by
  intro n
  induction n with
  | zero =>
    intro j w r w' out h
    simp only [PlayerInput.forLoop, Except.ok.injEq, Prod.mk.injEq] at h
    exact ⟨0, 0, by rw [← h.2.1, skip_zero]⟩
  | succ n ih =>
    intro j w r w' out h
    rw [PlayerInput.forLoop] at h
    obtain ⟨thisRound, -, h⟩ := bind_ok_inv h
    split at h
    · obtain ⟨⟨b, w1, out1⟩, h1, h⟩ := bind_ok_inv h
      obtain ⟨a1, b1, hw1⟩ := ButtonListener_later _ _ _ _ _ _ _ _ _ _ h1
      dsimp only at h
      split at h
      · obtain ⟨pin, -, h⟩ := bind_ok_inv h
        obtain ⟨itone, -, h⟩ := bind_ok_inv h
        obtain ⟨⟨r3, w3, out3⟩, h3, h⟩ := bind_ok_inv h
        simp only [Except.ok.injEq, Prod.mk.injEq] at h
        obtain ⟨a3, b3, hw3⟩ := ih _ _ _ _ _ h3
        exact ⟨_, _, by rw [← h.2.1, hw3, hw1, skip_skip]⟩
      · simp only [Except.ok.injEq, Prod.mk.injEq] at h
        exact ⟨_, _, by rw [← h.2.1, hw1]⟩
    · exact ih _ _ _ _ _ h

theorem PlayerInput_later (fuel : Nat) (RoundPick : List Int) (pickTimeout : Int)
    (aLEDs aSwitches aTones : List Int) (speakerPin duration : Int)
    (w : World) (r : Int) (w' : World) (out : List Event)
    (h : PlayerInput fuel RoundPick pickTimeout aLEDs aSwitches aTones speakerPin duration w =
      .ok (r, w', out)) :
    ∃ a b, w' = w.skip a b 0 := by
  unfold PlayerInput at h
  obtain ⟨⟨r1, w1, out1⟩, h1, h⟩ := bind_ok_inv h
  simp only [Except.ok.injEq, Prod.mk.injEq] at h
  obtain ⟨a, b, hw⟩ := PlayerInput_forLoop_later _ _ _ _ _ _ _ _ _ _ _ _ _ _ h1
  exact ⟨_, _, by rw [← h.2.1, hw]⟩

@[simp] theorem withStack_mem (w : World) (s : Nat → Int) : (w.withStack s).mem = w.mem := rfl

@[simp] theorem withStack_switches (w : World) (s : Nat → Int) :
    (w.withStack s).switches = w.switches := rfl

@[simp] theorem map_error {α β : Type} (f : α → β) (e : Fault) :
    (Except.error e : Except Fault α).map f = .error e := rfl

theorem bind_error_inv {α β : Type} {x : Except Fault α} {f : α → Except Fault β} {e : Fault}
    (h : (x >>= f) = .error e) : x = .error e ∨ ∃ a, x = .ok a ∧ f a = .error e := by
  cases x with
  | error e' => left; simpa using h
  | ok a => exact Or.inr ⟨a, rfl, h⟩

theorem ButtonListener_whileLoop_fault (pickTimeout : Int) (aSwitches aLEDs aTones : List Int)
    (speakerPin lngStartTime : Int)
    (hS : aSwitches.length = PINS) (hL : aLEDs.length = PINS) (hT : aTones.length = PINS) :
    ∀ (fuel : Nat) (state : Int) (w : World) (e : Fault),
      ButtonListener.whileLoop pickTimeout aSwitches aLEDs aTones speakerPin lngStartTime
        fuel state w = .error e → e = .outOfFuel := by
  intro fuel
  induction fuel with
  | zero =>
    intro state w e h
    unfold ButtonListener.whileLoop at h
    split at h
    · simp only [Except.error.injEq] at h; exact h.symm
    · simp at h
  | succ f ih =>
    intro state w e h
    unfold ButtonListener.whileLoop at h
    split at h
    · obtain ⟨out1, h1, -⟩ := ButtonListener_forLoop_ok aSwitches aLEDs aTones speakerPin hS hL hT
        PINS 0 state w (by omega)
      dsimp only at h
      rw [h1, ok_bind] at h
      dsimp only at h
      split at h
      · simp at h
      · rcases bind_error_inv h with h3 | ⟨res, -, h3⟩
        · exact ih _ _ _ h3
        · simp at h3
    · simp at h

theorem ButtonListener_fault (fuel : Nat) (pickTimeout : Int) (aSwitches aLEDs aTones : List Int)
    (speakerPin : Int)
    (hS : aSwitches.length = PINS) (hL : aLEDs.length = PINS) (hT : aTones.length = PINS)
    (w : World) (e : Fault)
    (h : ButtonListener fuel pickTimeout aSwitches aLEDs aTones speakerPin w = .error e) :
    e = .outOfFuel := by
  unfold ButtonListener at h
  simp only [millis] at h
  rcases bind_error_inv h with h1 | ⟨res, -, h1⟩
  · exact ButtonListener_whileLoop_fault _ _ _ _ _ _ hS hL hT _ _ _ _ h1
  · simp at h1

theorem PlayerInput_forLoop_fault (fuel : Nat) (RoundPick : List Int) (pickTimeout : Int)
    (aLEDs aSwitches aTones : List Int) (speakerPin duration : Int)
    (hS : aSwitches.length = PINS) (hL : aLEDs.length = PINS) (hT : aTones.length = PINS)
    (hE : ∀ e ∈ RoundPick, e = -1 ∨ (0 ≤ e ∧ e < PINS)) :
    ∀ (n j : Nat) (w : World) (e : Fault), j + n = RoundPick.length →
      PlayerInput.forLoop fuel RoundPick pickTimeout aLEDs aSwitches aTones speakerPin duration
        n j w = .error e → e = .outOfFuel := by
  intro n
  induction n with
  | zero => intro j w e _ h; simp [PlayerInput.forLoop] at h
  | succ n ih =>
    intro j w e hj h
    have hlt : j < RoundPick.length := by omega
    have hmem : RoundPick.getD j 0 ∈ RoundPick := by
      rw [List.getD_eq_getElem _ _ hlt]; exact List.getElem_mem _
    rw [PlayerInput.forLoop, index_nat _ _ hlt, ok_bind] at h
    generalize RoundPick.getD j 0 = x at hmem h
    split at h
    · have hx : 0 ≤ x ∧ x < PINS := by
        rcases hE x hmem with h1 | h1
        · omega
        · exact h1
      rcases bind_error_inv h with h1 | ⟨⟨b, w1, out1⟩, -, h1⟩
      · exact ButtonListener_fault _ _ _ _ _ _ hS hL hT _ _ h1
      · dsimp only at h1
        split at h1
        · rename_i hb
          subst hb
          rw [index_int _ _ hx.1 (by rw [hL]; exact_mod_cast hx.2),
            index_int _ _ hx.1 (by rw [hT]; exact_mod_cast hx.2)] at h1
          simp only [ok_bind] at h1
          rcases bind_error_inv h1 with h3 | ⟨res, -, h3⟩
          · exact ih _ _ _ (by omega) h3
          · simp at h3
        · simp at h1
    · exact ih _ _ _ (by omega) h

theorem PlayerInput_fault (fuel : Nat) (RoundPick : List Int) (pickTimeout : Int)
    (aLEDs aSwitches aTones : List Int) (speakerPin duration : Int)
    (hS : aSwitches.length = PINS) (hL : aLEDs.length = PINS) (hT : aTones.length = PINS)
    (hR : RoundPick.length = ROUNDS)
    (hE : ∀ e ∈ RoundPick, e = -1 ∨ (0 ≤ e ∧ e < PINS)) (w : World) (e : Fault)
    (h : PlayerInput fuel RoundPick pickTimeout aLEDs aSwitches aTones speakerPin duration w =
      .error e) : e = .outOfFuel := by
  unfold PlayerInput at h
  rcases bind_error_inv h with h1 | ⟨res, -, h1⟩
  · exact PlayerInput_forLoop_fault _ _ _ _ _ _ _ _ hS hL hT hE _ _ _ _ (by omega) h1
  · simp at h1

theorem PlaySimon_forLoop_fault (fuel : Nat) (aLEDs aSwitches aTones : List Int)
    (duration speakerPin pickTimeout : Int)
    (hS : aSwitches.length = PINS) (hL : aLEDs.length = PINS) (hT : aTones.length = PINS) :
    ∀ (n i : Nat) (RoundPick : List Int) (recVal : Int) (w : World) (e : Fault),
      i + n = ROUNDS → RoundPick.length = ROUNDS →
      (∀ e ∈ RoundPick, e = -1 ∨ (0 ≤ e ∧ e < PINS)) → FairDice w →
      PlaySimon.forLoop fuel aLEDs aSwitches aTones duration speakerPin pickTimeout
        n i RoundPick recVal w = .error e → e = .outOfFuel := by
  intro n
  induction n with
  | zero => intro i RoundPick recVal w e _ _ _ _ h; simp [PlaySimon.forLoop] at h
  | succ n ih =>
    intro i RoundPick recVal w e hi hR hE hfair h
    have hpick := hfair 1
    have hR1 : (RoundPick.set i (w.dice 1 0 PINS)).length = ROUNDS := by
      rw [List.length_set]; exact hR
    have hE1 := valid_set RoundPick i (w.dice 1 0 PINS) hE hpick
    obtain ⟨out2, hdisp, -, -⟩ := DisplayAllPicks_ok aLEDs aTones
      (RoundPick.set i (w.dice 1 0 PINS)) speakerPin duration hL hT hR1 hE1
    rw [PlaySimon.forLoop, NewPick_eq w hfair] at h
    dsimp only at h
    rw [store_ok _ _ _ (by omega), ok_bind, hdisp, ok_bind] at h
    rcases bind_error_inv h with h3 | ⟨⟨r3, w3, out3⟩, h3, h4⟩
    · exact PlayerInput_fault _ _ _ _ _ _ _ _ hS hL hT hR1 hE1 _ _ h3
    · obtain ⟨a, b, hw3⟩ := PlayerInput_later _ _ _ _ _ _ _ _ _ _ _ _ h3
      dsimp only at h4
      split at h4
      · simp at h4
      · rcases bind_error_inv h4 with h5 | ⟨res, -, h5⟩
        · exact ih _ _ _ _ _ (by omega) hR1 hE1 (by rw [hw3]; exact fairDice_later (fairDice_later hfair _ _ _) _ _ _) h5
        · simp at h5

theorem PlaySimon_fault (fuel : Nat) (aLEDs aSwitches aTones : List Int)
    (duration speakerPin pickTimeout : Int)
    (hS : aSwitches.length = PINS) (hL : aLEDs.length = PINS) (hT : aTones.length = PINS)
    (w : World) (hfair : FairDice w) (e : Fault)
    (h : PlaySimon fuel aLEDs aSwitches aTones duration speakerPin pickTimeout w = .error e) :
    e = .outOfFuel := by
  unfold PlaySimon at h
  dsimp only at h
  rw [initLoop_start, ok_bind] at h
  rcases bind_error_inv h with h1 | ⟨res, -, h1⟩
  · exact PlaySimon_forLoop_fault _ _ _ _ _ _ _ hS hL hT _ _ _ _ _ _ (by omega) (by simp)
      (fun e he => Or.inl (List.eq_of_mem_replicate he)) hfair h1
  · simp at h1

/-! ## The log of a run that returned -/

theorem PlayerInput_forLoop_silent (fuel : Nat) (RoundPick : List Int) (pickTimeout : Int)
    (aLEDs aSwitches aTones : List Int) (speakerPin duration : Int)
    (hS : aSwitches.length = PINS) (hL : aLEDs.length = PINS) (hT : aTones.length = PINS) :
    ∀ (n j : Nat) (w : World) (r : Int) (w' : World) (out : List Event),
      PlayerInput.forLoop fuel RoundPick pickTimeout aLEDs aSwitches aTones speakerPin duration
        n j w = .ok (r, w', out) →
      (r = 0 ∨ r = -1) ∧
      ∀ f, f ≠ .ButtonListener → f ≠ Fn.SyncIO → f ≠ .ToneOut → f ≠ .DisplayPick →
        f ≠ .BlinkPin → Silent f out := by
  intro n
  induction n with
  | zero =>
    intro j w r w' out h
    simp only [PlayerInput.forLoop, Except.ok.injEq, Prod.mk.injEq] at h
    obtain ⟨rfl, -, rfl⟩ := h
    exact ⟨Or.inl rfl, fun f _ _ _ _ _ => silent_nil f⟩
  | succ n ih =>
    intro j w r w' out h
    rw [PlayerInput.forLoop] at h
    obtain ⟨thisRound, -, h⟩ := bind_ok_inv h
    split at h
    · obtain ⟨⟨b, w1, out1⟩, h1, h⟩ := bind_ok_inv h
      obtain ⟨-, -, hlog⟩ := ButtonListener_inv pickTimeout aSwitches aLEDs aTones speakerPin
        hS hL hT fuel w b w1 out1 h1
      dsimp only at h
      split at h
      · obtain ⟨pin, -, h⟩ := bind_ok_inv h
        obtain ⟨itone, -, h⟩ := bind_ok_inv h
        obtain ⟨⟨r3, w3, out3⟩, h3, h⟩ := bind_ok_inv h
        simp only [Except.ok.injEq, Prod.mk.injEq] at h
        obtain ⟨rfl, -, rfl⟩ := h
        obtain ⟨hr, hs⟩ := ih _ _ _ _ _ h3
        refine ⟨hr, fun f f1 f2 f3 f4 f5 => ?_⟩
        exact silent_append (silent_append (silent_of_listen hlog f f1 f2 f3)
          (silent_DisplayPick f f4 f3 f5 _ _ _ _)) (hs f f1 f2 f3 f4 f5)
      · simp only [Except.ok.injEq, Prod.mk.injEq] at h
        obtain ⟨rfl, -, rfl⟩ := h
        exact ⟨Or.inr rfl, fun f f1 f2 f3 _ _ => silent_of_listen hlog f f1 f2 f3⟩
    · exact ih _ _ _ _ _ h

theorem PlayerInput_log (fuel : Nat) (RoundPick : List Int) (pickTimeout : Int)
    (aLEDs aSwitches aTones : List Int) (speakerPin duration : Int)
    (hS : aSwitches.length = PINS) (hL : aLEDs.length = PINS) (hT : aTones.length = PINS)
    (w : World) (r : Int) (w' : World) (out : List Event)
    (h : PlayerInput fuel RoundPick pickTimeout aLEDs aSwitches aTones speakerPin duration w =
      .ok (r, w', out)) :
    (r = 0 ∨ r = -1) ∧
    calls .PlayerInput out = [pickTimeout :: speakerPin :: duration :: RoundPick] ∧
    rets .PlayerInput out = [r] ∧
    (∀ f, f ≠ .PlayerInput → f ≠ .WrongPick → f ≠ .ButtonListener → f ≠ Fn.SyncIO →
      f ≠ .ToneOut → f ≠ .DisplayPick → f ≠ .BlinkPin → Silent f out) := by
  unfold PlayerInput at h
  obtain ⟨⟨r1, w1, out1⟩, h1, h⟩ := bind_ok_inv h
  simp only [Except.ok.injEq, Prod.mk.injEq] at h
  obtain ⟨rfl, -, rfl⟩ := h
  obtain ⟨hr, hs⟩ := PlayerInput_forLoop_silent fuel RoundPick pickTimeout aLEDs aSwitches aTones
    speakerPin duration hS hL hT _ _ _ _ _ _ h1
  have hsil : ∀ f, f ≠ .WrongPick → f ≠ .ToneOut →
      Silent f (if r1 = -1 then WrongPick w1.mem else []) := by
    intro f f1 f2
    split
    · exact silent_WrongPick f f1 f2 _
    · exact silent_nil f
  have hPI := hs .PlayerInput (by decide) (by decide) (by decide) (by decide) (by decide)
  have hsilPI := hsil .PlayerInput (by decide) (by decide)
  refine ⟨hr, ?_, ?_, ?_⟩
  · simp [calls, calls_append, hPI.1, hsilPI.1]
  · simp [rets, rets_append, hPI.2, hsilPI.2]
  · intro f f1 f2 f3 f4 f5 f6 f7
    have a := hs f f3 f4 f5 f6 f7
    have b := hsil f f2 f5
    exact ⟨by simp [calls, calls_append, a.1, b.1, Ne.symm f1],
      by simp [rets, rets_append, a.2, b.2, Ne.symm f1]⟩

theorem PlaySimon_forLoop_log (fuel : Nat) (aLEDs aSwitches aTones : List Int)
    (duration speakerPin pickTimeout : Int)
    (hS : aSwitches.length = PINS) (hL : aLEDs.length = PINS) (hT : aTones.length = PINS) :
    ∀ (n i : Nat) (RoundPick : List Int) (recVal : Int) (w : World) (res : Int × List Int)
      (w' : World) (out : List Event),
      i + n = ROUNDS → RoundPick.length = ROUNDS →
      (∀ e ∈ RoundPick, e = -1 ∨ (0 ≤ e ∧ e < PINS)) → FairDice w →
      PlaySimon.forLoop fuel aLEDs aSwitches aTones duration speakerPin pickTimeout
        n i RoundPick recVal w = .ok (res, w', out) →
      ∃ q, q ≤ n ∧
        ((q = n ∧ res.1 = (if n = 0 then recVal else 0) ∧
            RoundsLog pickTimeout speakerPin duration
              ((List.range q).map (fun t => fill w.dice RoundPick i (t + 1)))
              (List.replicate q 0) out) ∨
          (1 ≤ q ∧ res.1 = -1 ∧
            RoundsLog pickTimeout speakerPin duration
              ((List.range q).map (fun t => fill w.dice RoundPick i (t + 1)))
              (List.replicate (q - 1) 0 ++ [-1]) out)) := by
  intro n
  induction n with
  | zero =>
    intro i RoundPick recVal w res w' out _ _ _ _ h
    simp only [PlaySimon.forLoop, Except.ok.injEq, Prod.mk.injEq] at h
    obtain ⟨rfl, -, rfl⟩ := h
    exact ⟨0, le_refl _, Or.inl ⟨rfl, by simp, ⟨rfl, rfl, rfl, rfl, rfl⟩⟩⟩
  | succ n ih =>
    intro i RoundPick recVal w res w' out hi hR hE hfair h
    have hpick := hfair 1
    have hR1 : (RoundPick.set i (w.dice 1 0 PINS)).length = ROUNDS := by
      rw [List.length_set]; exact hR
    have hE1 := valid_set RoundPick i (w.dice 1 0 PINS) hE hpick
    obtain ⟨out2, hdisp, hcd, hsd⟩ := DisplayAllPicks_ok aLEDs aTones
      (RoundPick.set i (w.dice 1 0 PINS)) speakerPin duration hL hT hR1 hE1
    rw [PlaySimon.forLoop, NewPick_eq w hfair] at h
    dsimp only at h
    rw [store_ok _ _ _ (by omega), ok_bind, hdisp, ok_bind] at h
    obtain ⟨⟨r1, w3, out3⟩, hpi, h⟩ := bind_ok_inv h
    obtain ⟨a3, b3, hw3⟩ := PlayerInput_later _ _ _ _ _ _ _ _ _ _ _ _ hpi
    obtain ⟨hr1, hcp, hrp, hsp⟩ := PlayerInput_log fuel _ pickTimeout aLEDs aSwitches aTones
      speakerPin duration hS hL hT _ _ _ _ hpi
    have hround : RoundsLog pickTimeout speakerPin duration [RoundPick.set i (w.dice 1 0 PINS)] [r1]
        ([.enter .NewPick [0, PINS], .randomSeed (toLong (w.dice 0 1 2048)),
          .ret .NewPick (w.dice 1 0 PINS)] ++ out2 ++ out3) := by
      have d1 := hsd .NewPick (by decide) (by decide) (by decide) (by decide)
      have d2 := hsd .PlayerInput (by decide) (by decide) (by decide) (by decide)
      have d3 := hsd .DispenseReward (by decide) (by decide) (by decide) (by decide)
      have p1 := hsp .NewPick (by decide) (by decide) (by decide) (by decide) (by decide)
        (by decide) (by decide)
      have p2 := hsp .DisplayAllPicks (by decide) (by decide) (by decide) (by decide) (by decide)
        (by decide) (by decide)
      have p3 := hsp .DispenseReward (by decide) (by decide) (by decide) (by decide) (by decide)
        (by decide) (by decide)
      refine ⟨?_, ?_, ?_, ?_, ?_⟩
      · simp [calls, calls_append, d1.1, p1.1]
      · simp [calls, calls_append, hcd, p2.1]
      · simp [calls, calls_append, d2.1, hcp]
      · simp [rets, rets_append, d2.2, hrp]
      · simp [calls, calls_append, d3.1, p3.1]
    dsimp only at h
    rcases hr1 with h0 | hm1
    · subst h0
      rw [if_neg (by decide)] at h
      obtain ⟨⟨res4, w4, out4⟩, hrec, h⟩ := bind_ok_inv h
      simp only [Except.ok.injEq, Prod.mk.injEq] at h
      obtain ⟨rfl, -, rfl⟩ := h
      have hdice : w3.dice = fun k => w.dice (k + 2) := by
        rw [hw3]
        rfl
      obtain ⟨q, hq, hlog⟩ := ih (i + 1) (RoundPick.set i (w.dice 1 0 PINS)) 0 w3 _ _ _
        (by omega) hR1 hE1
        (by rw [hw3]; exact fairDice_later (fairDice_later hfair _ _ _) _ _ _) hrec
      rw [hdice] at hlog
      refine ⟨q + 1, by omega, ?_⟩
      have hmap : (List.range (q + 1)).map (fun t => fill w.dice RoundPick i (t + 1)) =
          RoundPick.set i (w.dice 1 0 PINS) ::
            (List.range q).map (fun t => fill (fun k => w.dice (k + 2))
              (RoundPick.set i (w.dice 1 0 PINS)) (i + 1) (t + 1)) := by
        rw [List.range_succ_eq_map, List.map_cons, List.map_map]
        rfl
      have happ : ∀ (arrs : List (List Int)) (outs : List Int),
          RoundsLog pickTimeout speakerPin duration arrs outs out4 →
          RoundsLog pickTimeout speakerPin duration
            (RoundPick.set i (w.dice 1 0 PINS) :: arrs) (0 :: outs)
            ([.enter .NewPick [0, PINS], .randomSeed (toLong (w.dice 0 1 2048)),
              .ret .NewPick (w.dice 1 0 PINS)] ++ out2 ++ out3 ++ .delay 3000 :: out4) := by
        intro arrs outs hl
        have e : ∀ (x : List Event), x ++ Event.delay 3000 :: out4 = x ++ ([Event.delay 3000] ++ out4) :=
          fun x => rfl
        refine ⟨?_, ?_, ?_, ?_, ?_⟩
        · rw [e, calls_append, hround.newPick, calls_append, hl.newPick]; rfl
        · rw [e, calls_append, hround.display, calls_append, hl.display]; rfl
        · rw [e, calls_append, hround.verify, calls_append, hl.verify]; rfl
        · rw [e, rets_append, hround.outcomes, rets_append, hl.outcomes]; rfl
        · rw [e, calls_append, hround.noReward, calls_append, hl.noReward]; rfl
      rcases hlog with ⟨hqn, hr, hl⟩ | ⟨hq1, hr, hl⟩
      · left
        refine ⟨by omega, ?_, ?_⟩
        · rw [hr]; split <;> simp
        · rw [hmap, List.replicate_succ]
          exact happ _ _ hl
      · right
        refine ⟨by omega, hr, ?_⟩
        rw [hmap, show q + 1 - 1 = (q - 1) + 1 by omega, List.replicate_succ, List.cons_append]
        exact happ _ _ hl
    · subst hm1
      rw [if_pos rfl] at h
      simp only [Except.ok.injEq, Prod.mk.injEq] at h
      obtain ⟨rfl, -, rfl⟩ := h
      exact ⟨1, by omega, Or.inr ⟨le_refl _, rfl, by simpa [fill] using hround⟩⟩

theorem PlayerInput_forLoop_verdict (fuel : Nat) (RoundPick : List Int) (pickTimeout : Int)
    (aLEDs aSwitches aTones : List Int) (speakerPin duration : Int)
    (hS : aSwitches.length = PINS) (hL : aLEDs.length = PINS) (hT : aTones.length = PINS)
    (hE : ∀ e ∈ RoundPick, e = -1 ∨ (0 ≤ e ∧ e < PINS)) :
    ∀ (n j : Nat) (w : World) (r : Int) (w' : World) (out : List Event),
      j + n = RoundPick.length →
      PlayerInput.forLoop fuel RoundPick pickTimeout aLEDs aSwitches aTones speakerPin duration
        n j w = .ok (r, w', out) →
      Verdict aLEDs aTones speakerPin duration
        ((RoundPick.drop j).filter (fun e => decide (e ≠ -1))) r out := by
  intro n
  induction n with
  | zero =>
    intro j w r w' out hj h
    simp only [PlayerInput.forLoop, Except.ok.injEq, Prod.mk.injEq] at h
    obtain ⟨rfl, -, rfl⟩ := h
    rw [List.drop_of_length_le (by omega)]
    exact Or.inl ⟨rfl, rfl, rfl, rfl⟩
  | succ n ih =>
    intro j w r w' out hj h
    have hlt : j < RoundPick.length := by omega
    have hd : RoundPick.drop j = RoundPick.getD j 0 :: RoundPick.drop (j + 1) := by
      rw [List.getD_eq_getElem _ _ hlt]; exact List.drop_eq_getElem_cons hlt
    have hmem : RoundPick.getD j 0 ∈ RoundPick := by
      rw [List.getD_eq_getElem _ _ hlt]; exact List.getElem_mem _
    rw [PlayerInput.forLoop, index_nat _ _ hlt, ok_bind] at h
    rw [hd]
    generalize RoundPick.getD j 0 = x at hmem h
    rcases hE _ hmem with hx | ⟨h0, h1⟩
    · subst hx
      rw [if_neg (by decide)] at h
      have := ih (j + 1) w r w' out (by omega) h
      simpa using this
    · have hne : x ≠ -1 := by omega
      have hgt : x > -1 := by omega
      rw [if_pos hgt] at h
      obtain ⟨⟨b, w1, out1⟩, hbl, h⟩ := bind_ok_inv h
      obtain ⟨-, -, hlog⟩ := ButtonListener_inv pickTimeout aSwitches aLEDs aTones
        speakerPin hS hL hT fuel w b w1 out1 hbl
      dsimp only at h
      rw [List.filter_cons_of_pos (by simpa using hne)]
      by_cases hb : b = x
      · subst hb
        rw [if_pos rfl, index_int _ _ h0 (by rw [hL]; exact_mod_cast h1),
          index_int _ _ h0 (by rw [hT]; exact_mod_cast h1)] at h
        simp only [ok_bind] at h
        obtain ⟨⟨r3, w3, out3⟩, h3, h⟩ := bind_ok_inv h
        simp only [Except.ok.injEq, Prod.mk.injEq] at h
        obtain ⟨rfl, -, rfl⟩ := h
        have hv := ih (j + 1) w1 r3 w3 out3 (by omega) h3
        have hdp1 := (silent_DisplayPick .ButtonListener (by decide) (by decide) (by decide)
          (aLEDs.getD b.toNat 0) (aTones.getD b.toNat 0) speakerPin duration)
        have hdp2 := calls_DisplayPick (aLEDs.getD b.toNat 0) (aTones.getD b.toNat 0) speakerPin duration
        have hl1 := hlog.others .DisplayPick (by decide) (by decide) (by decide)
        rcases hv with ⟨hr, hrets, hcalls, hdisp⟩ | ⟨hr, m, b', hm, hb', hrets, hcalls, hdisp⟩
        · left
          refine ⟨hr, ?_, ?_, ?_⟩
          · rw [rets_append, rets_append, hlog.returned, hdp1.2, hrets]; rfl
          · rw [calls_append, calls_append, hlog.entered, hdp1.1]; simp [hcalls]
          · rw [calls_append, calls_append, hl1, hdp2, hdisp]; rfl
        · right
          refine ⟨hr, m + 1, b', by simpa using hm, by simpa using hb', ?_, ?_, ?_⟩
          · rw [rets_append, rets_append, hlog.returned, hdp1.2, hrets]; rfl
          · rw [calls_append, calls_append, hlog.entered, hdp1.1]; simp [hcalls]
          · rw [calls_append, calls_append, hl1, hdp2, hdisp]; rfl
      · rw [if_neg hb] at h
        simp only [Except.ok.injEq, Prod.mk.injEq] at h
        obtain ⟨rfl, -, rfl⟩ := h
        right
        refine ⟨rfl, 0, b, by simp, by simpa using hb, ?_, ?_, ?_⟩
        · simp [hlog.returned]
        · simp [hlog.entered]
        · simp [hlog.others .DisplayPick (by decide) (by decide) (by decide)]

theorem PlayerInput_verdict_of_ok (fuel : Nat) (RoundPick : List Int) (pickTimeout : Int)
    (aLEDs aSwitches aTones : List Int) (speakerPin duration : Int)
    (hS : aSwitches.length = PINS) (hL : aLEDs.length = PINS) (hT : aTones.length = PINS)
    (hR : RoundPick.length = ROUNDS)
    (hE : ∀ e ∈ RoundPick, e = -1 ∨ (0 ≤ e ∧ e < PINS))
    (w : World) (r : Int) (w' : World) (out : List Event)
    (h : PlayerInput fuel RoundPick pickTimeout aLEDs aSwitches aTones speakerPin duration w =
      .ok (r, w', out)) :
    Verdict aLEDs aTones speakerPin duration (RoundPick.filter (fun e => decide (e ≠ -1))) r out ∧
    calls .WrongPick out = (if r = -1 then [[]] else []) := by
  unfold PlayerInput at h
  obtain ⟨⟨r1, w1, out1⟩, h1, h⟩ := bind_ok_inv h
  simp only [Except.ok.injEq, Prod.mk.injEq] at h
  obtain ⟨rfl, -, rfl⟩ := h
  have hv := PlayerInput_forLoop_verdict fuel RoundPick pickTimeout aLEDs aSwitches aTones
    speakerPin duration hS hL hT hE ROUNDS 0 w r1 w1 out1 (by omega) h1
  obtain ⟨-, hs⟩ := PlayerInput_forLoop_silent fuel RoundPick pickTimeout aLEDs aSwitches aTones
    speakerPin duration hS hL hT _ _ _ _ _ _ h1
  rw [List.drop_zero] at hv
  have hsil : ∀ f, f ≠ .WrongPick → f ≠ .ToneOut →
      Silent f (if r1 = -1 then WrongPick w1.mem else []) := by
    intro f f1 f2
    split
    · exact silent_WrongPick f f1 f2 _
    · exact silent_nil f
  have hwp : calls .WrongPick (if r1 = -1 then WrongPick w1.mem else []) =
      (if r1 = -1 then [[]] else []) := by
    split
    · exact calls_WrongPick _
    · rfl
  have key : ∀ f, f ≠ .PlayerInput → f ≠ .WrongPick → f ≠ .ToneOut →
      calls f (.enter .PlayerInput (pickTimeout :: speakerPin :: duration :: RoundPick)
        :: (out1 ++ (if r1 = -1 then WrongPick w1.mem else []) ++ [.ret .PlayerInput r1])) =
          calls f out1 ∧
      rets f (.enter .PlayerInput (pickTimeout :: speakerPin :: duration :: RoundPick)
        :: (out1 ++ (if r1 = -1 then WrongPick w1.mem else []) ++ [.ret .PlayerInput r1])) =
          rets f out1 := by
    intro f f1 f2 f3
    have := hsil f f2 f3
    constructor
    · simp [calls, calls_append, this.1, Ne.symm f1]
    · simp [rets, rets_append, this.2, Ne.symm f1]
  have hWP := hs .WrongPick (by decide) (by decide) (by decide) (by decide) (by decide)
  refine ⟨?_, ?_⟩
  · have k1 := key .ButtonListener (by decide) (by decide) (by decide)
    have k2 := key .DisplayPick (by decide) (by decide) (by decide)
    unfold Verdict at hv ⊢
    rw [k1.1, k1.2, k2.1]
    exact hv
  · simp [calls, calls_append, hWP.1, hwp]

/-! ## Claims about the verifier and the orchestrator -/

/-- C1: for a pick sequence whose valid entries `es` form its prefix (the rest is
`-1`), a call of `PlayerInput` that returns gives PASS (0) exactly when the values
returned by `ButtonListener` are `es`, entry by entry.  On PASS `WrongPick` is not
called and every entry is confirmed.  Otherwise it returns FAIL (-1): for the first
mismatch `m`, `ButtonListener` was called `m + 1` times and returned `es[0..m-1]`
followed by some `b ≠ es[m]`, `DisplayPick` was called for the entries `0..m-1` only,
and `WrongPick` was called once.  The call does return when every capture returns. -/
theorem PlayerInput_verdict (fuel : Nat) (pickTimeout : Int)
    (aLEDs aSwitches aTones : List Int) (speakerPin duration : Int)
    (hS : aSwitches.length = PINS) (hL : aLEDs.length = PINS) (hT : aTones.length = PINS)
    (es : List Int) (hk : es.length ≤ ROUNDS) (hvalid : ∀ e ∈ es, 0 ≤ e ∧ e < PINS)
    (w : World) :
    (Responsive fuel pickTimeout aSwitches aLEDs aTones speakerPin w →
      ∃ r w' out,
        PlayerInput fuel (es ++ List.replicate (ROUNDS - es.length) (-1)) pickTimeout aLEDs
          aSwitches aTones speakerPin duration w = .ok (r, w', out)) ∧
    ∀ r w' out,
      PlayerInput fuel (es ++ List.replicate (ROUNDS - es.length) (-1)) pickTimeout aLEDs aSwitches
        aTones speakerPin duration w = .ok (r, w', out) →
      (r = 0 ↔ rets .ButtonListener out = es) ∧
      (r = 0 → (calls .ButtonListener out).length = es.length ∧
        calls .DisplayPick out = es.map (confirmArgs aLEDs aTones speakerPin duration) ∧
        calls .WrongPick out = []) ∧
      (r ≠ 0 → r = -1 ∧ ∃ m b, m < es.length ∧ b ≠ es.getD m 0 ∧
        rets .ButtonListener out = es.take m ++ [b] ∧
        (calls .ButtonListener out).length = m + 1 ∧
        calls .DisplayPick out = (es.take m).map (confirmArgs aLEDs aTones speakerPin duration) ∧
        calls .WrongPick out = [[]]) := by
  have hR : (es ++ List.replicate (ROUNDS - es.length) (-1)).length = ROUNDS := by
    simp; omega
  have hE : ∀ e : Int, e ∈ es ++ List.replicate (ROUNDS - es.length) (-1) →
      (e = -1 ∨ (0 ≤ e ∧ e < PINS)) := by
    intro e he
    rcases List.mem_append.1 he with h | h
    · exact Or.inr (hvalid e h)
    · exact Or.inl (List.eq_of_mem_replicate h)
  refine ⟨?_, ?_⟩
  · intro hresp
    obtain ⟨r, w', out, h, -⟩ := PlayerInput_ok fuel _ pickTimeout aLEDs aSwitches aTones
      speakerPin duration hS hL hT hR hE w hresp
    exact ⟨r, w', out, h⟩
  intro r w' out h
  obtain ⟨hv, hwp⟩ := PlayerInput_verdict_of_ok fuel _ pickTimeout aLEDs aSwitches aTones
    speakerPin duration hS hL hT hR hE w r w' out h
  rw [filter_valid_entries es _ hvalid] at hv
  refine ⟨?_, ?_, ?_⟩
  · constructor
    · intro hr
      rcases hv with ⟨_, hrets, _, _⟩ | ⟨hr', _⟩
      · exact hrets
      · omega
    · intro hrets
      rcases hv with ⟨hr, _⟩ | ⟨_, m, b, hm, hb, hrets', _, _⟩
      · exact hr
      · exfalso
        apply hb
        have := congrArg (fun l => l.getD m 0) (hrets'.symm.trans hrets)
        simpa [List.getD_eq_getElem?_getD, List.getElem?_append_right, List.length_take,
          Nat.min_eq_left (Nat.le_of_lt hm)] using this
  · intro hr
    rcases hv with ⟨_, _, hcalls, hdisp⟩ | ⟨hr', _⟩
    · exact ⟨hcalls, hdisp, by simpa [hr] using hwp⟩
    · omega
  · intro hr
    rcases hv with ⟨hr', _⟩ | ⟨hr', m, b, hm, hb, hrets, hcalls, hdisp⟩
    · exact absurd hr' hr
    · exact ⟨hr', m, b, hm, hb, hrets, hcalls, hdisp, by simpa [hr'] using hwp⟩

theorem PlayerInput_verdict_witness :
    ∃ r w' out,
      PlayerInput 1 ([0, 1] ++ List.replicate (ROUNDS - [0, 1].length) (-1)) 6000 [2, 3, 4] [6, 7, 8]
        [277, 349, 415] 10 1500 (scriptedWorld (sketchGlobals 277 349 415) [0, 1] []) =
          .ok (r, w', out) ∧
      (r = 0 ↔ rets .ButtonListener out = [0, 1]) :=
  let ⟨hret, hlog⟩ :=
    PlayerInput_verdict 1 6000 [2, 3, 4] [6, 7, 8] [277, 349, 415] 10 1500 rfl rfl rfl [0, 1]
      (by decide) (by decide) (scriptedWorld (sketchGlobals 277 349 415) [0, 1] [])
  let ⟨r, w', out, h⟩ := hret (scriptedWorld_responsive _ _ _ _ _ _ rfl rfl)
  ⟨r, w', out, h, (hlog r w' out h).1⟩

theorem scriptedWorld_fair (mem : Globals) (script rolls : List Int)
    (h : ∀ e ∈ rolls, 0 ≤ e ∧ e < PINS) : FairDice (scriptedWorld mem script rolls) := by
  intro k
  simp only [scriptedWorld, List.getD_eq_getElem?_getD]
  cases hk : rolls[k]? with
  | none => simp
  | some v => exact h v (List.getElem?_mem hk)


theorem PlaySimon_log (fuel : Nat) (aLEDs aSwitches aTones : List Int)
    (duration speakerPin pickTimeout : Int)
    (hS : aSwitches.length = PINS) (hL : aLEDs.length = PINS) (hT : aTones.length = PINS)
    (w : World) (hfair : FairDice w) (w' : World) (out : List Event)
    (h : PlaySimon fuel aLEDs aSwitches aTones duration speakerPin pickTimeout w =
      .ok ((), w', out)) :
    ∃ q r, 1 ≤ q ∧ q ≤ ROUNDS ∧
      ((q = ROUNDS ∧ r = 0 ∧ rets .PlayerInput out = List.replicate q 0) ∨
        (r = -1 ∧ rets .PlayerInput out = List.replicate (q - 1) 0 ++ [-1])) ∧
      calls .DispenseReward out = (if r = 0 then [[]] else []) ∧
      calls .NewPick out = (List.range q).map (fun _ => [0, (PINS : Int)]) ∧
      calls .DisplayAllPicks out =
        (List.range q).map (fun t => speakerPin :: duration :: snapshot w t) ∧
      calls .PlayerInput out =
        (List.range q).map (fun t => pickTimeout :: speakerPin :: duration :: snapshot w t) := by
  unfold PlaySimon at h
  dsimp only at h
  rw [initLoop_start, ok_bind] at h
  obtain ⟨⟨⟨r, RP⟩, w1, out1⟩, hloop, h⟩ := bind_ok_inv h
  simp only [Except.ok.injEq, Prod.mk.injEq, true_and] at h
  obtain ⟨-, rfl⟩ := h
  obtain ⟨q, hq, hlog⟩ := PlaySimon_forLoop_log fuel aLEDs aSwitches aTones
    duration speakerPin pickTimeout hS hL hT ROUNDS 0 (List.replicate ROUNDS (-1)) 0 w _ _ _
    (by omega) (by simp) (fun e he => Or.inl (List.eq_of_mem_replicate he)) hfair hloop
  have hq1 : 1 ≤ q := by
    rcases hlog with ⟨h, _⟩ | ⟨h, _⟩
    · rw [h]; decide
    · exact h
  have harr : (List.range q).map (fun t => fill w.dice (List.replicate ROUNDS (-1)) 0 (t + 1)) =
      (List.range q).map (fun t => snapshot w t) := by
    apply List.map_congr_left
    intro t ht
    exact fill_start w t (by have := List.mem_range.1 ht; omega)
  rw [harr] at hlog
  have hsD : ∀ f, f ≠ .DispenseReward → f ≠ .MotorControl →
      Silent f (if r = 0 then DispenseReward else []) := by
    intro f f1 f2
    split
    · exact silent_DispenseReward f f1 f2
    · exact silent_nil f
  have hcD : calls .DispenseReward (if r = 0 then DispenseReward else []) =
      (if r = 0 then [[]] else []) := by
    split <;> rfl
  have key : ∀ f, f ≠ .PlaySimon → f ≠ .DispenseReward → f ≠ .MotorControl →
      calls f (.enter .PlaySimon [duration, speakerPin, pickTimeout]
        :: (out1 ++ (if r = 0 then DispenseReward else []))) = calls f out1 ∧
      rets f (.enter .PlaySimon [duration, speakerPin, pickTimeout]
        :: (out1 ++ (if r = 0 then DispenseReward else []))) = rets f out1 := by
    intro f f1 f2 f3
    have := hsD f f2 f3
    exact ⟨by simp [calls, calls_append, this.1, Ne.symm f1], by simp [rets, rets_append, this.2]⟩
  have k1 := key .PlayerInput (by decide) (by decide) (by decide)
  have k2 := key .NewPick (by decide) (by decide) (by decide)
  have k3 := key .DisplayAllPicks (by decide) (by decide) (by decide)
  have hL' : RoundsLog pickTimeout speakerPin duration ((List.range q).map (fun t => snapshot w t))
      (rets .PlayerInput out1) out1 := by
    rcases hlog with ⟨_, _, hl⟩ | ⟨_, _, hl⟩
    · exact ⟨hl.newPick, hl.display, hl.verify, rfl, hl.noReward⟩
    · exact ⟨hl.newPick, hl.display, hl.verify, rfl, hl.noReward⟩
  refine ⟨q, r, hq1, hq, ?_, ?_, ?_, ?_, ?_⟩
  · rw [k1.2]
    rcases hlog with ⟨hqn, hr, hl⟩ | ⟨_, hr, hl⟩
    · exact Or.inl ⟨hqn, by simpa using hr, hl.outcomes⟩
    · exact Or.inr ⟨hr, hl.outcomes⟩
  · simp [calls, calls_append, hL'.noReward, hcD]
  · rw [k2.1, hL'.newPick, List.map_map]; rfl
  · rw [k3.1, hL'.display, List.map_map]; rfl
  · rw [k1.1, hL'.verify, List.map_map]; rfl

theorem PlaySimon_returns (fuel : Nat) (aLEDs aSwitches aTones : List Int)
    (duration speakerPin pickTimeout : Int)
    (hS : aSwitches.length = PINS) (hL : aLEDs.length = PINS) (hT : aTones.length = PINS)
    (w : World) (hfair : FairDice w)
    (hresp : Responsive fuel pickTimeout aSwitches aLEDs aTones speakerPin w) :
    ∃ w' out,
      PlaySimon fuel aLEDs aSwitches aTones duration speakerPin pickTimeout w = .ok ((), w', out) := by
  obtain ⟨_, _, w', out, h, -⟩ := PlaySimon_ok fuel aLEDs aSwitches aTones duration speakerPin
    pickTimeout hS hL hT w hfair hresp
  exact ⟨w', out, h⟩

/-- C5: in a run where the generator returns channel indices, one run of `PlaySimon`
that returns ends in one of two ways.  Either `PlayerInput` returned PASS (0) in all
`ROUNDS` rounds, and then `DispenseReward` is called exactly once; or it returned PASS
in the first `m < ROUNDS` rounds and FAIL (-1) in the next, and then `DispenseReward`
is never called and exactly `m + 1` calls of `NewPick`, of `DisplayAllPicks` and of
`PlayerInput` were made: no round follows the failing one.  The run does return when
every capture returns. -/
theorem PlaySimon_rewards_full_pass (fuel : Nat) (aLEDs aSwitches aTones : List Int)
    (duration speakerPin pickTimeout : Int)
    (hS : aSwitches.length = PINS) (hL : aLEDs.length = PINS) (hT : aTones.length = PINS)
    (w : World) (hfair : FairDice w) :
    (Responsive fuel pickTimeout aSwitches aLEDs aTones speakerPin w →
      ∃ w' out, PlaySimon fuel aLEDs aSwitches aTones duration speakerPin pickTimeout w =
        .ok ((), w', out)) ∧
    ∀ w' out,
      PlaySimon fuel aLEDs aSwitches aTones duration speakerPin pickTimeout w = .ok ((), w', out) →
      ((rets .PlayerInput out = List.replicate ROUNDS 0 ∧
          calls .DispenseReward out = [[]] ∧
          (calls .NewPick out).length = ROUNDS ∧
          (calls .DisplayAllPicks out).length = ROUNDS ∧
          (calls .PlayerInput out).length = ROUNDS) ∨
        ∃ m, m < ROUNDS ∧ rets .PlayerInput out = List.replicate m 0 ++ [-1] ∧
          calls .DispenseReward out = [] ∧
          (calls .NewPick out).length = m + 1 ∧
          (calls .DisplayAllPicks out).length = m + 1 ∧
          (calls .PlayerInput out).length = m + 1) := by
  refine ⟨PlaySimon_returns fuel aLEDs aSwitches aTones duration speakerPin pickTimeout hS hL hT
    w hfair, ?_⟩
  intro w' out h
  obtain ⟨q, r, hq1, hq, hout, hd, hn, hda, hpi⟩ := PlaySimon_log fuel aLEDs aSwitches
    aTones duration speakerPin pickTimeout hS hL hT w hfair w' out h
  rcases hout with ⟨hqR, hr, hrets⟩ | ⟨hr, hrets⟩
  · left
    subst hqR
    refine ⟨hrets, by simpa [hr] using hd, by simp [hn], by simp [hda], by simp [hpi]⟩
  · right
    refine ⟨q - 1, by omega, hrets, by simpa [hr] using hd, ?_, ?_, ?_⟩
    · simp [hn]; omega
    · simp [hda]; omega
    · simp [hpi]; omega

theorem PlaySimon_rewards_full_pass_witness :
    ∃ w' out,
      PlaySimon 1 [2, 3, 4] [6, 7, 8] [277, 349, 415] 1500 10 6000
        (scriptedWorld (sketchGlobals 277 349 415) [2, 2, 0, 2, 0, 1] [1, 2, 1, 0, 1, 1]) =
          .ok ((), w', out) ∧
      ((rets .PlayerInput out = List.replicate ROUNDS 0 ∧
          calls .DispenseReward out = [[]] ∧
          (calls .NewPick out).length = ROUNDS ∧
          (calls .DisplayAllPicks out).length = ROUNDS ∧
          (calls .PlayerInput out).length = ROUNDS) ∨
        ∃ m, m < ROUNDS ∧ rets .PlayerInput out = List.replicate m 0 ++ [-1] ∧
          calls .DispenseReward out = [] ∧
          (calls .NewPick out).length = m + 1 ∧
          (calls .DisplayAllPicks out).length = m + 1 ∧
          (calls .PlayerInput out).length = m + 1) :=
  let ⟨hret, hlog⟩ :=
    PlaySimon_rewards_full_pass 1 [2, 3, 4] [6, 7, 8] [277, 349, 415] 1500 10 6000 rfl rfl rfl
      (scriptedWorld (sketchGlobals 277 349 415) [2, 2, 0, 2, 0, 1] [1, 2, 1, 0, 1, 1])
      (scriptedWorld_fair _ _ _ (by decide))
  let ⟨w', out, h⟩ := hret (scriptedWorld_responsive _ _ _ _ _ _ rfl rfl)
  ⟨w', out, h, hlog w' out h⟩

set_option maxRecDepth 100000 in
/-- The end-to-end run of the specification: picks `[2, 0, 1]`, reproduced exactly in
each of the three rounds.  All three rounds pass and the reward is dispensed once,
with 682 motor steps. -/
theorem PlaySimon_pass_run :
    (PlaySimon 1 [2, 3, 4] [6, 7, 8] [277, 349, 415] 1500 10 6000
        (scriptedWorld (sketchGlobals 277 349 415) [2, 2, 0, 2, 0, 1] [1, 2, 1, 0, 1, 1])).toOption.map
      (fun x => (rets .NewPick x.2.2, rets .PlayerInput x.2.2, calls .DispenseReward x.2.2,
        (commands x.2.2).filter (fun e => decide (e = .motorStep 682)))) =
      some ([2, 0, 1], [0, 0, 0], [[]], [.motorStep 682]) := by
  decide

set_option maxRecDepth 100000 in
/-- The end-to-end run of the specification with a wrong press in round 2: the
player answers `2, 1` to the picks `2, 0`.  Round 2 fails, round 3 never starts
(only two picks are generated) and the reward is not dispensed. -/
theorem PlaySimon_fail_run :
    (PlaySimon 1 [2, 3, 4] [6, 7, 8] [277, 349, 415] 1500 10 6000
        (scriptedWorld (sketchGlobals 277 349 415) [2, 2, 1] [1, 2, 1, 0, 1, 1])).toOption.map
      (fun x => (rets .NewPick x.2.2, rets .PlayerInput x.2.2, calls .DispenseReward x.2.2,
        (calls .DisplayAllPicks x.2.2).length)) =
      some ([2, 0], [0, -1], [], 2) := by
  decide

/-! ## Claims about the game array and about successive attempts -/

theorem snapshot_getD (w : World) (t s : Nat) (ht : t < ROUNDS) (hs : s < ROUNDS) :
    (snapshot w t).getD s 0 = if s ≤ t then w.dice (2 * s + 1) 0 PINS else -1 := by
  have ht' : t < 3 := ht
  have hs' : s < 3 := hs
  interval_cases t <;> interval_cases s <;> simp [snapshot, List.range_succ]

theorem snapshot_length (w : World) (t : Nat) (ht : t < ROUNDS) :
    (snapshot w t).length = ROUNDS := by
  simp only [snapshot, List.length_append, List.length_map, List.length_range,
    List.length_replicate]
  omega

/-- C8: assuming `random(0, PINS)` returns a value in `[0, PINS)`, the calls of
`DisplayAllPicks` and `PlayerInput` in round `t` of a run get the array `snapshot w t`:
the picks of rounds `0..t`, each a channel index, in slots `0..t`, the sentinel `-1`
in slots `t+1..ROUNDS-1`, and slots `0..t-1` as in round `t - 1`.  No run, with any
fuel, stops on an array access out of bounds, and the run returns when every
capture returns. -/
theorem PlaySimon_round_arrays (aLEDs aSwitches aTones : List Int)
    (duration speakerPin pickTimeout : Int)
    (hS : aSwitches.length = PINS) (hL : aLEDs.length = PINS) (hT : aTones.length = PINS)
    (w : World) (hfair : FairDice w) :
    (∀ fuel, PlaySimon fuel aLEDs aSwitches aTones duration speakerPin pickTimeout w ≠
      .error .outOfBounds) ∧
    (∀ fuel, Responsive fuel pickTimeout aSwitches aLEDs aTones speakerPin w →
      ∃ w' out, PlaySimon fuel aLEDs aSwitches aTones duration speakerPin pickTimeout w =
        .ok ((), w', out)) ∧
    (∀ fuel w' out,
      PlaySimon fuel aLEDs aSwitches aTones duration speakerPin pickTimeout w = .ok ((), w', out) →
      ∃ q, 1 ≤ q ∧ q ≤ ROUNDS ∧
        calls .DisplayAllPicks out =
          (List.range q).map (fun t => speakerPin :: duration :: snapshot w t) ∧
        calls .PlayerInput out =
          (List.range q).map (fun t => pickTimeout :: speakerPin :: duration :: snapshot w t)) ∧
    ∀ t, t < ROUNDS →
      (snapshot w t).length = ROUNDS ∧
      (∀ s, s ≤ t → 0 ≤ (snapshot w t).getD s 0 ∧ (snapshot w t).getD s 0 < PINS) ∧
      (∀ s, t < s → s < ROUNDS → (snapshot w t).getD s 0 = -1) ∧
      (∀ s, s < t → (snapshot w t).getD s 0 = (snapshot w (t - 1)).getD s 0) := by
  refine ⟨?_, ?_, ?_, ?_⟩
  · intro fuel h
    have := PlaySimon_fault fuel aLEDs aSwitches aTones duration speakerPin pickTimeout hS hL hT
      w hfair _ h
    exact absurd this (by decide)
  · intro fuel hresp
    exact PlaySimon_returns fuel aLEDs aSwitches aTones duration speakerPin pickTimeout hS hL hT
      w hfair hresp
  · intro fuel w' out h
    obtain ⟨q, r, hq1, hq, -, -, -, hda, hpi⟩ := PlaySimon_log fuel aLEDs aSwitches
      aTones duration speakerPin pickTimeout hS hL hT w hfair w' out h
    exact ⟨q, hq1, hq, hda, hpi⟩
  · intro t ht
    refine ⟨snapshot_length w t ht, ?_, ?_, ?_⟩
    · intro s hs
      rw [snapshot_getD w t s ht (by omega), if_pos hs]
      exact hfair _
    · intro s hts hs
      rw [snapshot_getD w t s ht hs, if_neg (by omega)]
    · intro s hs
      rw [snapshot_getD w t s ht (by omega), snapshot_getD w (t - 1) s (by omega) (by omega),
        if_pos (by omega), if_pos (by omega)]

theorem PlaySimon_round_arrays_witness :
    ∃ q w' out,
      PlaySimon 1 [2, 3, 4] [6, 7, 8] [277, 349, 415] 1500 10 6000
        (scriptedWorld (sketchGlobals 277 349 415) [2, 2, 0, 2, 0, 1] [1, 2, 1, 0, 1, 1]) =
          .ok ((), w', out) ∧
      1 ≤ q ∧ q ≤ ROUNDS ∧
      calls .DisplayAllPicks out =
        (List.range q).map (fun t => 10 :: 1500 ::
          snapshot (scriptedWorld (sketchGlobals 277 349 415) [2, 2, 0, 2, 0, 1] [1, 2, 1, 0, 1, 1]) t) ∧
      calls .PlayerInput out =
        (List.range q).map (fun t => 6000 :: 10 :: 1500 ::
          snapshot (scriptedWorld (sketchGlobals 277 349 415) [2, 2, 0, 2, 0, 1] [1, 2, 1, 0, 1, 1]) t) :=
  let ⟨_, hret, hlog, _⟩ :=
    PlaySimon_round_arrays [2, 3, 4] [6, 7, 8] [277, 349, 415] 1500 10 6000 rfl rfl rfl
      (scriptedWorld (sketchGlobals 277 349 415) [2, 2, 0, 2, 0, 1] [1, 2, 1, 0, 1, 1])
      (scriptedWorld_fair _ _ _ (by decide))
  let ⟨w', out, h⟩ := hret 1 (scriptedWorld_responsive _ _ _ _ _ _ rfl rfl)
  let ⟨q, h1, h2, h3, h4⟩ := hlog 1 w' out h
  ⟨q, w', out, h, h1, h2, h3, h4⟩

set_option maxRecDepth 100000 in
/-- The arrays the three rounds of the end-to-end run see. -/
theorem PlaySimon_arrays_run :
    (PlaySimon 1 [2, 3, 4] [6, 7, 8] [277, 349, 415] 1500 10 6000
        (scriptedWorld (sketchGlobals 277 349 415) [2, 2, 0, 2, 0, 1] [1, 2, 1, 0, 1, 1])).toOption.map
      (fun x => (calls .DisplayAllPicks x.2.2, calls .PlayerInput x.2.2)) =
      some ([[10, 1500, 2, -1, -1], [10, 1500, 2, 0, -1], [10, 1500, 2, 0, 1]],
        [[6000, 10, 1500, 2, -1, -1], [6000, 10, 1500, 2, 0, -1], [6000, 10, 1500, 2, 0, 1]]) := by
  decide

end SimonSaysSit
